import Mathlib

/-!
The kcptun-asio client: output pipeline, connection acceptor, duplex forwarder.

A shallow embedding of `src/kcptun_client.cpp`.  The program is a set of
asynchronous continuations run on one event loop, so every member function
and every completion lambda becomes a pure function on an explicit state, and
the event loop becomes a list of events chosen by the environment (the
transport, the multiplexer, the local sockets and the callers).

A closure (`std::function`) is represented by a constructor that stores its
captures; calling the closure is the corresponding `invoke` function.
-/

namespace KcptunClient

/-! ## Definitions -/

/-- Identity of a `char *` buffer. -/
abbrev Buf := Nat

/-- A `std::error_code`; the test `if (ec)` is `ec ≠ 0`. -/
abbrev ErrorCode := Nat

/-- Identity of a caller supplied completion callback. -/
abbrev HandlerId := Nat

/-- The `Task{buf, len, handler}` record pushed by `output_handler`; a null
`std::function` is `none`. -/
structure Task where
  buf : Buf
  len : Nat
  handler : Option HandlerId
deriving DecidableEq, Repr

/-- The `write_handler` lambda of `try_write_task`; it captures `task`. -/
structure WriteHandler where
  task : Task
deriving DecidableEq, Repr

/-- Modelled from the spec: the continuation that the compression writer
(`snappy_stream_writer`, not part of the sources) passes to its output sink.
Per the specification the writer "invokes the original caller's callback
reporting the original uncompressed length once the underlying write
completes"; the continuation holds that length and the caller's callback. -/
inductive SnappyCompletion where
  | relay (len : Nat) (handler : WriteHandler)
deriving DecidableEq, Repr

/-- The closures that are handed to `local_->async_write` as completion
handler. -/
inductive TransportHandler where
  /-- The `write_handler` lambda of `try_write_task`, passed directly when no
  compression writer exists. -/
  | direct (handler : WriteHandler)
  /-- The lambda of `snappy_stream_writer_output_handler`; it captures the
  `len` argument and the `handler` argument of that function. -/
  | snappy (len : Nat) (handler : Option SnappyCompletion)
deriving DecidableEq, Repr

/-- What can be observed of the pipeline, in the order it happens. -/
inductive Obs where
  /-- `output_handler(buf, len, handler)` was called. -/
  | submit (t : Task)
  /-- `try_write_task` popped `t` and issued its write (to the compression
  writer or to the transport). -/
  | start (t : Task)
  /-- `local_->async_write(buf, len, _)` was called. -/
  | xmit (buf : Buf) (len : Nat)
  /-- The transport delivered the completion `(ec, n)` of a write. -/
  | done (ec : ErrorCode) (n : Nat)
  /-- The callback `h` of a task was called as `h(ec, len)`. -/
  | call (h : HandlerId) (ec : ErrorCode) (len : Nat)
deriving DecidableEq, Repr

/-- Modelled from the spec: the compression writer `snappy_stream_writer`
(declared in `snappy_stream.h`, not part of the sources).  Per the
specification it "accepts raw application bytes, compresses them, writes the
compressed bytes to the transport" through the sink it was constructed with.
The chunk it hands to the sink for its `k`-th input is left arbitrary. -/
structure SnappyWriter where
  chunk : Nat → Buf × Nat

/-- The members `tasks_` and `writing_` of `kcptun_client`, together with the
writes that are outstanding at the transport `local_`, the number of inputs
the compression writer has consumed, and the observation log. -/
structure kcptun_client where
  tasks_ : List Task
  writing_ : Bool
  inflight : List TransportHandler
  snappy_inputs : Nat
  log : List Obs
deriving DecidableEq, Repr

/-- The state after construction: empty queue, `writing_ = false`. -/
def kcptun_client.init : kcptun_client :=
  { tasks_ := [], writing_ := false, inflight := [], snappy_inputs := 0, log := [] }

/-- Modelled from the spec: `Local::async_write` (class `Local` is not part of
the sources).  Per the specification the transport write is asynchronous: the
call registers the write and returns, and the completion `(error, length)` is
delivered later by the event loop. -/
def Local.async_write (s : kcptun_client) (buf : Buf) (len : Nat) (h : TransportHandler) :
    kcptun_client :=
  { s with inflight := s.inflight ++ [h], log := s.log ++ [Obs.xmit buf len] }

/-- The function `kcptun_client::snappy_stream_writer_output_handler`. -/
def snappy_stream_writer_output_handler (s : kcptun_client) (buf : Buf) (len : Nat)
    (handler : Option SnappyCompletion) : kcptun_client :=
  Local.async_write s buf len (TransportHandler.snappy len handler)

/-- Modelled from the spec: `snappy_stream_writer::async_input(buf, len,
handler)`; the writer compresses the input and hands one chunk to its output
sink, which `run()` wires to `snappy_stream_writer_output_handler`. -/
def SnappyWriter.async_input (w : SnappyWriter) (s : kcptun_client) (_buf : Buf) (len : Nat)
    (handler : WriteHandler) : kcptun_client :=
  snappy_stream_writer_output_handler { s with snappy_inputs := s.snappy_inputs + 1 }
    (w.chunk s.snappy_inputs).1 (w.chunk s.snappy_inputs).2
    (some (SnappyCompletion.relay len handler))

/-- The function `kcptun_client::try_write_task`; `cfg` is the member
`snappy_writer_`, which `run()` sets exactly when compression is enabled. -/
def try_write_task (cfg : Option SnappyWriter) (s : kcptun_client) : kcptun_client :=
  match s.tasks_ with
  | [] => { s with writing_ := false }
  | task :: rest =>
    let s1 : kcptun_client := { s with tasks_ := rest, log := s.log ++ [Obs.start task] }
    match cfg with
    | some w => w.async_input s1 task.buf task.len { task := task }
    | none => Local.async_write s1 task.buf task.len (TransportHandler.direct { task := task })

/-- The function `kcptun_client::output_handler`. -/
def output_handler (cfg : Option SnappyWriter) (s : kcptun_client) (t : Task) : kcptun_client :=
  let s1 : kcptun_client := { s with tasks_ := s.tasks_ ++ [t], log := s.log ++ [Obs.submit t] }
  if s1.writing_ = false then
    try_write_task cfg { s1 with writing_ := true }
  else
    s1

/-- A call `task.handler(ec, len)` of a caller supplied callback.  The callback
belongs to the multiplexer; all it can do to the pipeline is to submit further
tasks through `output_handler` before it returns, here the list `reentrant`. -/
def call_handler (cfg : Option SnappyWriter) (s : kcptun_client) (h : HandlerId) (ec : ErrorCode)
    (len : Nat) (reentrant : List Task) : kcptun_client :=
  reentrant.foldl (output_handler cfg) { s with log := s.log ++ [Obs.call h ec len] }

/-- The body of the `write_handler` lambda of `try_write_task`, called as
`write_handler(ec, n)`; the second argument is unnamed in the source and not
used. -/
def write_handler (cfg : Option SnappyWriter) (s : kcptun_client) (task : Task) (ec : ErrorCode)
    (_n : Nat) (reentrant : List Task) : kcptun_client :=
  if ec ≠ 0 then
    s
  else
    let s1 : kcptun_client :=
      match task.handler with
      | some h => call_handler cfg s h ec task.len reentrant
      | none => s
    try_write_task cfg s1

/-- Calling a `write_handler` closure as `h(ec, n)`. -/
def WriteHandler.invoke (cfg : Option SnappyWriter) (s : kcptun_client) (ec : ErrorCode) (n : Nat)
    (reentrant : List Task) (h : WriteHandler) : kcptun_client :=
  write_handler cfg s h.task ec n reentrant

/-- Modelled from the spec: calling the compression writer's continuation as
`(ec, n)`; it calls the caller's callback with the error code and the original
length. -/
def SnappyCompletion.invoke (cfg : Option SnappyWriter) (s : kcptun_client) (ec : ErrorCode)
    (_n : Nat) (reentrant : List Task) : SnappyCompletion → kcptun_client
  | SnappyCompletion.relay len handler => handler.invoke cfg s ec len reentrant

/-- Calling a transport completion handler as `h(ec, n)`. -/
def TransportHandler.invoke (cfg : Option SnappyWriter) (s : kcptun_client) (ec : ErrorCode)
    (n : Nat) (reentrant : List Task) : TransportHandler → kcptun_client
  | TransportHandler.direct handler => handler.invoke cfg s ec n reentrant
  | TransportHandler.snappy len handler =>
    match handler with
    | some k => k.invoke cfg s ec len reentrant
    | none => s

/-- What the event loop can deliver to the pipeline. -/
inductive Event where
  /-- A caller (any Forwarder, through the multiplexer) submits a task. -/
  | submit (t : Task)
  /-- The transport completes its `i`-th outstanding write with `(ec, n)`;
  `reentrant` are the tasks the task's callback submits if it is called. -/
  | complete (i : Nat) (ec : ErrorCode) (n : Nat) (reentrant : List Task)
deriving DecidableEq, Repr

/-- One turn of the event loop; `none` when the event cannot happen (there is
no `i`-th outstanding write). -/
def step (cfg : Option SnappyWriter) (s : kcptun_client) : Event → Option kcptun_client
  | Event.submit t => some (output_handler cfg s t)
  | Event.complete i ec n reentrant =>
    match s.inflight[i]? with
    | none => none
    | some h =>
      some (h.invoke cfg
        { s with inflight := s.inflight.eraseIdx i, log := s.log ++ [Obs.done ec n] }
        ec n reentrant)

/-- A sequence of turns of the event loop. -/
def run (cfg : Option SnappyWriter) (s : kcptun_client) : List Event → Option kcptun_client
  | [] => some s
  | e :: es => (step cfg s e).bind (fun s1 => run cfg s1 es)

/-- The tasks submitted so far, in submission order. -/
def submitted (l : List Obs) : List Task :=
  l.filterMap (fun o => match o with | Obs.submit t => some t | _ => none)

/-- The tasks whose write has been issued so far, in order. -/
def started (l : List Obs) : List Task :=
  l.filterMap (fun o => match o with | Obs.start t => some t | _ => none)

/-- The `(buffer, length)` pairs written to the transport so far, in order. -/
def xmits (l : List Obs) : List (Buf × Nat) :=
  l.filterMap (fun o => match o with | Obs.xmit b n => some (b, n) | _ => none)

/-- The callback invocations so far, in order. -/
def calls (l : List Obs) : List (HandlerId × ErrorCode × Nat) :=
  l.filterMap (fun o => match o with | Obs.call h ec n => some (h, ec, n) | _ => none)

/-- The pipeline trace: the log without the submissions and without the
payload of the transport operations. -/
inductive Mark where
  | issued (t : Task)
  | sent
  | completed (ec : ErrorCode)
  | called (h : HandlerId) (ec : ErrorCode) (len : Nat)
deriving DecidableEq, Repr

/-- The pipeline-trace entry of an observation. -/
def Obs.mark : Obs → Option Mark
  | Obs.submit _ => none
  | Obs.start t => some (Mark.issued t)
  | Obs.xmit _ _ => some Mark.sent
  | Obs.done ec _ => some (Mark.completed ec)
  | Obs.call h ec n => some (Mark.called h ec n)

/-- The pipeline trace of a log. -/
def marks (l : List Obs) : List Mark := l.filterMap Obs.mark

/-- The pipeline trace of one task that is processed successfully: its write
is issued and sent, the write completes, then its callback (if any) is called
with the task's own length. -/
def block (t : Task) : List Mark :=
  [Mark.issued t, Mark.sent, Mark.completed 0] ++
    (match t.handler with
     | some h => [Mark.called h 0 t.len]
     | none => [])

/-- The task on whose behalf a transport completion handler runs
`write_handler`. -/
def TransportHandler.task : TransportHandler → Option Task
  | TransportHandler.direct h => some h.task
  | TransportHandler.snappy _ (some (SnappyCompletion.relay _ h)) => some h.task
  | TransportHandler.snappy _ none => none

/-- Idle: nothing queued, nothing outstanding, every submitted task fully
processed. -/
def Idle (s : kcptun_client) : Prop :=
  s.writing_ = false ∧ s.inflight = [] ∧ s.tasks_ = [] ∧
    marks s.log = (submitted s.log).flatMap block

/-- Busy: the write of exactly one task `t` is outstanding; the tasks `d`
before it are fully processed and the tasks after it are queued. -/
def Busy (s : kcptun_client) : Prop :=
  ∃ d t hd, s.writing_ = true ∧ s.inflight = [hd] ∧ hd.task = some t ∧
    submitted s.log = d ++ t :: s.tasks_ ∧
    marks s.log = d.flatMap block ++ [Mark.issued t, Mark.sent]

/-- Stalled: the write of task `t` failed with `ec`; nothing is outstanding
but `writing_` is still set. -/
def Stalled (s : kcptun_client) : Prop :=
  ∃ d t ec, ec ≠ 0 ∧ s.writing_ = true ∧ s.inflight = [] ∧
    submitted s.log = d ++ t :: s.tasks_ ∧
    marks s.log = d.flatMap block ++ [Mark.issued t, Mark.sent, Mark.completed ec]

/-- The invariant of the output pipeline. -/
def Inv (s : kcptun_client) : Prop := Idle s ∨ Busy s ∨ Stalled s

/-- The tasks that the callback of `t` submits when the write of `t` succeeds:
`reentrant` if `t` has a callback, none otherwise. -/
def resubmitted (t : Task) (reentrant : List Task) : List Task :=
  match t.handler with
  | some _ => reentrant
  | none => []

/-- The callback invocation that the successful write of `t` produces. -/
def callback_obs (t : Task) : List Obs :=
  match t.handler with
  | some h => [Obs.call h 0 t.len]
  | none => []

/-- The task of an `issued` entry of the pipeline trace. -/
def Mark.issuedTask : Mark → Option Task
  | Mark.issued t => some t
  | _ => none

/-- The callback invocation of a `called` entry of the pipeline trace. -/
def Mark.calledWith : Mark → Option (HandlerId × ErrorCode × Nat)
  | Mark.called h ec n => some (h, ec, n)
  | _ => none

/-- The callback invocation a task is owed: its callback, a success code and
the task's own length. -/
def Task.expected_call (t : Task) : Option (HandlerId × ErrorCode × Nat) :=
  t.handler.map (fun h => (h, 0, t.len))

/-- The `(buffer, length)` pair of a task. -/
def Task.span (t : Task) : Buf × Nat := (t.buf, t.len)

/-- Without compression every transport write carries the buffer and length
of the task it was issued for. -/
def Verbatim (l : List Obs) : Prop := xmits l = (started l).map Task.span

/-- The pipeline has stalled: `writing_` is set although no write is
outstanding. -/
def Stall (s : kcptun_client) : Prop := s.writing_ = true ∧ s.inflight = []

/-- The calls a forwarder makes on its local socket `sock_` and on its logical
stream `sess_`. -/
inductive SessOp where
  /-- The call `sock_->async_read_some(buf1_, ...)` of `do_pipe1`. -/
  | sock_read
  /-- The call `sess_->async_write(buf1_, len, ...)` of `do_pipe1`. -/
  | sess_write (len : Nat)
  /-- The call `sess_->async_read_some(buf2_, ...)` of `do_pipe2`. -/
  | sess_read
  /-- The call `asio::async_write(*sock_, buffer(buf2_, len), ...)` of
  `do_pipe2`. -/
  | sock_write (len : Nat)
  /-- The call `sess_->destroy()`. -/
  | destroy
  /-- The call `sock_->cancel()`. -/
  | cancel
deriving DecidableEq, Repr

/-- The two completion lambdas of one direction: the outer one (given to the
read) and the inner one (given to the write). -/
inductive PipeHandler where
  | read_handler
  | write_handler
deriving DecidableEq, Repr

/-- A forwarder: for each direction the completion handler of its outstanding
asynchronous operation (`none` when the direction has no operation
outstanding any more), and the calls made so far, in order. -/
structure kcptun_client_session where
  pipe1 : Option PipeHandler
  pipe2 : Option PipeHandler
  ops : List SessOp
deriving DecidableEq, Repr

/-- A forwarder after construction. -/
def kcptun_client_session.init : kcptun_client_session :=
  { pipe1 := none, pipe2 := none, ops := [] }

/-- The function `kcptun_client_session::do_pipe1`: arm the upstream read. -/
def kcptun_client_session.do_pipe1 (s : kcptun_client_session) : kcptun_client_session :=
  { s with pipe1 := some PipeHandler.read_handler, ops := s.ops ++ [SessOp.sock_read] }

/-- The outer lambda of `do_pipe1`, called as `(ec, len)` when the read on the
local socket completes. -/
def kcptun_client_session.pipe1_read_handler (s : kcptun_client_session) (ec : ErrorCode)
    (len : Nat) : kcptun_client_session :=
  if ec ≠ 0 then
    { s with ops := s.ops ++ [SessOp.destroy] }
  else
    { s with pipe1 := some PipeHandler.write_handler, ops := s.ops ++ [SessOp.sess_write len] }

/-- The inner lambda of `do_pipe1`, called as `(ec, _)` when the write to the
logical stream completes. -/
def kcptun_client_session.pipe1_write_handler (s : kcptun_client_session) (ec : ErrorCode)
    (_n : Nat) : kcptun_client_session :=
  if ec ≠ 0 then
    { s with ops := s.ops ++ [SessOp.cancel] }
  else
    s.do_pipe1

/-- The function `kcptun_client_session::do_pipe2`: arm the downstream read. -/
def kcptun_client_session.do_pipe2 (s : kcptun_client_session) : kcptun_client_session :=
  { s with pipe2 := some PipeHandler.read_handler, ops := s.ops ++ [SessOp.sess_read] }

/-- The outer lambda of `do_pipe2`, called as `(ec, len)` when the read on the
logical stream completes. -/
def kcptun_client_session.pipe2_read_handler (s : kcptun_client_session) (ec : ErrorCode)
    (len : Nat) : kcptun_client_session :=
  if ec ≠ 0 then
    { s with ops := s.ops ++ [SessOp.cancel] }
  else
    { s with pipe2 := some PipeHandler.write_handler, ops := s.ops ++ [SessOp.sock_write len] }

/-- The inner lambda of `do_pipe2`, called as `(ec, len)` when the write to the
local socket completes. -/
def kcptun_client_session.pipe2_write_handler (s : kcptun_client_session) (ec : ErrorCode)
    (_len : Nat) : kcptun_client_session :=
  if ec ≠ 0 then
    { s with ops := s.ops ++ [SessOp.destroy] }
  else
    s.do_pipe2

/-- The function `kcptun_client_session::run`. -/
def kcptun_client_session.run (s : kcptun_client_session) : kcptun_client_session :=
  s.do_pipe1.do_pipe2

/-- The completions the event loop can deliver to a forwarder. -/
inductive SessEvent where
  /-- The read on the local socket completed with `(ec, len)`. -/
  | sock_read_done (ec : ErrorCode) (len : Nat)
  /-- The write to the logical stream completed with `(ec, n)`. -/
  | sess_write_done (ec : ErrorCode) (n : Nat)
  /-- The read on the logical stream completed with `(ec, len)`. -/
  | sess_read_done (ec : ErrorCode) (len : Nat)
  /-- The write to the local socket completed with `(ec, n)`. -/
  | sock_write_done (ec : ErrorCode) (n : Nat)
deriving DecidableEq, Repr

/-- One turn of the event loop for a forwarder: the completion of an
outstanding operation consumes it and calls its handler; `none` when that
operation is not outstanding. -/
def kcptun_client_session.step (s : kcptun_client_session) :
    SessEvent → Option kcptun_client_session
  | SessEvent.sock_read_done ec len =>
    if s.pipe1 = some PipeHandler.read_handler then
      some (kcptun_client_session.pipe1_read_handler { s with pipe1 := none } ec len)
    else none
  | SessEvent.sess_write_done ec n =>
    if s.pipe1 = some PipeHandler.write_handler then
      some (kcptun_client_session.pipe1_write_handler { s with pipe1 := none } ec n)
    else none
  | SessEvent.sess_read_done ec len =>
    if s.pipe2 = some PipeHandler.read_handler then
      some (kcptun_client_session.pipe2_read_handler { s with pipe2 := none } ec len)
    else none
  | SessEvent.sock_write_done ec n =>
    if s.pipe2 = some PipeHandler.write_handler then
      some (kcptun_client_session.pipe2_write_handler { s with pipe2 := none } ec n)
    else none

/-- A sequence of turns of the event loop for a forwarder. -/
def kcptun_client_session.exec (s : kcptun_client_session) :
    List SessEvent → Option kcptun_client_session
  | [] => some s
  | e :: es => (s.step e).bind (fun s1 => s1.exec es)

/-- The upstream operations (local socket read, stream write) among the calls
of a forwarder. -/
def upstream_ops (l : List SessOp) : List SessOp :=
  l.filter (fun o => match o with
    | SessOp.sock_read => true
    | SessOp.sess_write _ => true
    | _ => false)

/-- The downstream operations (stream read, local socket write) among the
calls of a forwarder. -/
def downstream_ops (l : List SessOp) : List SessOp :=
  l.filter (fun o => match o with
    | SessOp.sess_read => true
    | SessOp.sock_write _ => true
    | _ => false)

/-- Whether an event is an error of the upstream direction. -/
def SessEvent.upstream_error : SessEvent → Bool
  | SessEvent.sock_read_done ec _ => decide (ec ≠ 0)
  | SessEvent.sess_write_done ec _ => decide (ec ≠ 0)
  | _ => false

/-- Identity of an accepted local socket. -/
abbrev Sock := Nat

/-- Identity of a logical stream (`smux_sess`). -/
abbrev Sess := Nat

/-- The acceptor part of the client: the outstanding `async_accept`
operations, the number of `async_accept` calls made so far, the number of
connections accepted so far (which names the next socket), the outstanding
`async_connect` callbacks (each holds its accepted socket), and the forwarders
created so far with the socket and stream they hold. -/
structure Acceptor where
  accepting : Nat
  armed : Nat
  accepted : Nat
  connecting : List Sock
  forwarders : List (Sock × Sess × kcptun_client_session)
deriving DecidableEq, Repr

/-- The function `kcptun_client::do_accept`: arm one `async_accept`. -/
def do_accept (s : Acceptor) : Acceptor :=
  { s with accepting := s.accepting + 1, armed := s.armed + 1 }

/-- The acceptor after `run()`: `do_accept()` has been called once. -/
def Acceptor.init : Acceptor :=
  do_accept { accepting := 0, armed := 0, accepted := 0, connecting := [], forwarders := [] }

/-- Modelled from the spec: `smux::async_connect` (class `smux` is not part of
the sources).  Per the specification the multiplexer answers a connect with a
logical stream or a refusal; the callback is kept until the answer comes. -/
def smux.async_connect (s : Acceptor) (sock : Sock) : Acceptor :=
  { s with connecting := s.connecting ++ [sock] }

/-- The completion lambda of `async_accept` in `do_accept`, called as `(ec)`. -/
def accept_handler (s : Acceptor) (ec : ErrorCode) : Acceptor :=
  if ec ≠ 0 then
    s
  else
    let sock : Sock := s.accepted
    do_accept (smux.async_connect { s with accepted := s.accepted + 1 } sock)

/-- The callback given to `smux_->async_connect` in `do_accept`; it captures
`sock` and is called with the logical stream, null (`none`) on refusal. -/
def connect_handler (s : Acceptor) (sock : Sock) (sess : Option Sess) : Acceptor :=
  match sess with
  | none => s
  | some ss =>
    { s with forwarders :=
        s.forwarders ++ [(sock, ss, kcptun_client_session.run kcptun_client_session.init)] }

/-- What the event loop can deliver to the acceptor. -/
inductive AcceptEvent where
  /-- An outstanding `async_accept` completed with `ec`. -/
  | accept_done (ec : ErrorCode)
  /-- The multiplexer answers the `i`-th outstanding connect. -/
  | connect_done (i : Nat) (sess : Option Sess)
deriving DecidableEq, Repr

/-- One turn of the event loop for the acceptor; `none` when the event cannot
happen.  A callback that has been called is released, and with it the socket
it captured. -/
def Acceptor.step (s : Acceptor) : AcceptEvent → Option Acceptor
  | AcceptEvent.accept_done ec =>
    if s.accepting = 0 then none
    else some (accept_handler { s with accepting := s.accepting - 1 } ec)
  | AcceptEvent.connect_done i sess =>
    match s.connecting[i]? with
    | none => none
    | some sock => some (connect_handler { s with connecting := s.connecting.eraseIdx i } sock sess)

/-- A sequence of turns of the event loop for the acceptor. -/
def Acceptor.exec (s : Acceptor) : List AcceptEvent → Option Acceptor
  | [] => some s
  | e :: es => (s.step e).bind (fun s1 => s1.exec es)

/-- The accepted sockets that are still held: by an outstanding connect
callback or by a forwarder. -/
def Acceptor.held (s : Acceptor) : List Sock :=
  s.connecting ++ s.forwarders.map (fun f => f.1)

/-- The held sockets are pairwise distinct and all of them are accepted
ones. -/
def Distinct (s : Acceptor) : Prop :=
  s.held.Nodup ∧ ∀ x ∈ s.held, x < s.accepted

/-- A task with a callback. -/
def task_a : Task := { buf := 1, len := 4, handler := some 7 }

/-- A task without callback. -/
def task_b : Task := { buf := 2, len := 5, handler := none }

/-- A task that the callback of `task_a` submits re-entrantly. -/
def task_c : Task := { buf := 3, len := 6, handler := some 8 }

/-- Two submissions to a fresh pipeline. -/
def two_submits : List Event := [Event.submit task_a, Event.submit task_b]

/-- The pipeline after `two_submits` without compression: the write of
`task_a` is outstanding, `task_b` is queued. -/
def busy_state : kcptun_client :=
  { tasks_ := [task_b], writing_ := true, inflight := [TransportHandler.direct { task := task_a }],
    snappy_inputs := 0,
    log := [Obs.submit task_a, Obs.start task_a, Obs.xmit 1 4, Obs.submit task_b] }

/-- The state `busy_state` after the transport reported success and 3 bytes
for the write of `task_a`, whose callback submitted `task_c`. -/
def next_state : kcptun_client :=
  { tasks_ := [task_c], writing_ := true, inflight := [TransportHandler.direct { task := task_b }],
    snappy_inputs := 0,
    log := [Obs.submit task_a, Obs.start task_a, Obs.xmit 1 4, Obs.submit task_b,
            Obs.done 0 3, Obs.call 7 0 4, Obs.submit task_c, Obs.start task_b, Obs.xmit 2 5] }

/-- A complete successful run: three tasks, the third submitted from the
callback of the first. -/
def full_run : List Event :=
  [Event.submit task_a, Event.submit task_b, Event.complete 0 0 3 [task_c],
   Event.complete 0 0 5 [], Event.complete 0 0 6 []]

/-- The pipeline after `full_run`. -/
def drained_state : kcptun_client :=
  { tasks_ := [], writing_ := false, inflight := [], snappy_inputs := 0,
    log := [Obs.submit task_a, Obs.start task_a, Obs.xmit 1 4, Obs.submit task_b,
            Obs.done 0 3, Obs.call 7 0 4, Obs.submit task_c, Obs.start task_b, Obs.xmit 2 5,
            Obs.done 0 5, Obs.start task_c, Obs.xmit 3 6, Obs.done 0 6, Obs.call 8 0 6] }

/-- The state `busy_state` after the transport reported error 9 for the write
of `task_a`. -/
def failed_state : kcptun_client :=
  { tasks_ := [task_b], writing_ := true, inflight := [], snappy_inputs := 0,
    log := [Obs.submit task_a, Obs.start task_a, Obs.xmit 1 4, Obs.submit task_b,
            Obs.done 9 0] }

/-- The state `failed_state` after one more submission. -/
def failed_later_state : kcptun_client :=
  { tasks_ := [task_b, task_c], writing_ := true, inflight := [], snappy_inputs := 0,
    log := [Obs.submit task_a, Obs.start task_a, Obs.xmit 1 4, Obs.submit task_b,
            Obs.done 9 0, Obs.submit task_c] }

/-- A compression writer that hands a chunk of 2 bytes to its sink for every
input. -/
def small_chunks : SnappyWriter := { chunk := fun k => (100 + k, 2) }

/-- The pipeline after `two_submits` with the compression writer
`small_chunks`. -/
def busy_snappy_state : kcptun_client :=
  { tasks_ := [task_b], writing_ := true,
    inflight := [TransportHandler.snappy 2 (some (SnappyCompletion.relay 4 { task := task_a }))],
    snappy_inputs := 1,
    log := [Obs.submit task_a, Obs.start task_a, Obs.xmit 100 2, Obs.submit task_b] }

/-- The state `busy_snappy_state` after the transport reported success and 2
bytes. -/
def next_snappy_state : kcptun_client :=
  { tasks_ := [], writing_ := true,
    inflight := [TransportHandler.snappy 2 (some (SnappyCompletion.relay 5 { task := task_b }))],
    snappy_inputs := 2,
    log := [Obs.submit task_a, Obs.start task_a, Obs.xmit 100 2, Obs.submit task_b,
            Obs.done 0 2, Obs.call 7 0 4, Obs.start task_b, Obs.xmit 101 2] }

/-- The acceptor after one successful accept: socket 0 waits for the
multiplexer's answer and a new accept is armed. -/
def one_accepted : Acceptor :=
  { accepting := 1, armed := 2, accepted := 1, connecting := [0], forwarders := [] }

/-- The state `one_accepted` after the multiplexer refused the stream. -/
def one_refused : Acceptor :=
  { accepting := 1, armed := 2, accepted := 1, connecting := [], forwarders := [] }

/-- A started forwarder: both reads armed. -/
def started_session : kcptun_client_session :=
  { pipe1 := some PipeHandler.read_handler, pipe2 := some PipeHandler.read_handler,
    ops := [SessOp.sock_read, SessOp.sess_read] }

/-- The forwarder `started_session` after a read error on the local socket. -/
def upstream_failed_session : kcptun_client_session :=
  { pipe1 := none, pipe2 := some PipeHandler.read_handler,
    ops := [SessOp.sock_read, SessOp.sess_read, SessOp.destroy] }

/-- The forwarder `started_session` after a read error on the stream. -/
def downstream_failed_session : kcptun_client_session :=
  { pipe1 := some PipeHandler.read_handler, pipe2 := none,
    ops := [SessOp.sock_read, SessOp.sess_read, SessOp.cancel] }

/-! ## Theorems -/

theorem marks_append (a b : List Obs) : marks (a ++ b) = marks a ++ marks b := by
  simp [marks]

theorem submitted_append (a b : List Obs) : submitted (a ++ b) = submitted a ++ submitted b := by
  simp [submitted]

theorem started_append (a b : List Obs) : started (a ++ b) = started a ++ started b := by
  simp [started]

theorem xmits_append (a b : List Obs) : xmits (a ++ b) = xmits a ++ xmits b := by
  simp [xmits]

theorem calls_append (a b : List Obs) : calls (a ++ b) = calls a ++ calls b := by
  simp [calls]

theorem submitted_map_submit (re : List Task) : submitted (re.map Obs.submit) = re := by
  induction re with
  | nil => rfl
  | cons t re ih =>
    have h : submitted (Obs.submit t :: re.map Obs.submit) = t :: submitted (re.map Obs.submit) := rfl
    simp [h, ih]

theorem marks_map_submit (re : List Task) : marks (re.map Obs.submit) = [] := by
  induction re with
  | nil => rfl
  | cons t re ih =>
    have h : marks (Obs.submit t :: re.map Obs.submit) = marks (re.map Obs.submit) := rfl
    simp [h, ih]

/-- With an empty queue `try_write_task` only clears `writing_`. -/
theorem try_write_task_nil (cfg : Option SnappyWriter) (s : kcptun_client) (h : s.tasks_ = []) :
    try_write_task cfg s = { s with writing_ := false } := by
  simp [try_write_task, h]

/-- With a non-empty queue `try_write_task` pops the head and issues exactly
one transport write on its behalf. -/
theorem try_write_task_cons (cfg : Option SnappyWriter) (s : kcptun_client) (t : Task)
    (rest : List Task) (h : s.tasks_ = t :: rest) :
    ∃ hd b n, hd.task = some t ∧
      (try_write_task cfg s).tasks_ = rest ∧
      (try_write_task cfg s).writing_ = s.writing_ ∧
      (try_write_task cfg s).inflight = s.inflight ++ [hd] ∧
      (try_write_task cfg s).log = s.log ++ [Obs.start t, Obs.xmit b n] ∧
      (cfg = none → hd = TransportHandler.direct { task := t } ∧ b = t.buf ∧ n = t.len) := by
  cases cfg with
  | none =>
    refine ⟨TransportHandler.direct { task := t }, t.buf, t.len, rfl, ?_⟩
    simp [try_write_task, h, Local.async_write]
  | some w =>
    refine ⟨TransportHandler.snappy (w.chunk s.snappy_inputs).2
        (some (SnappyCompletion.relay t.len { task := t })),
      (w.chunk s.snappy_inputs).1, (w.chunk s.snappy_inputs).2, rfl, ?_⟩
    simp [try_write_task, h, SnappyWriter.async_input, snappy_stream_writer_output_handler,
      Local.async_write]

/-- While `writing_` is set `output_handler` only appends to the queue. -/
theorem output_handler_busy (cfg : Option SnappyWriter) (s : kcptun_client) (t : Task)
    (h : s.writing_ = true) :
    output_handler cfg s t = { s with tasks_ := s.tasks_ ++ [t], log := s.log ++ [Obs.submit t] } := by
  simp [output_handler, h]

/-- While `writing_` is set a sequence of submissions only appends to the
queue. -/
theorem foldl_output_handler_busy (cfg : Option SnappyWriter) (re : List Task) :
    ∀ s : kcptun_client, s.writing_ = true →
      re.foldl (output_handler cfg) s =
        { s with tasks_ := s.tasks_ ++ re, log := s.log ++ re.map Obs.submit } := by
  induction re with
  | nil => intro s _; simp
  | cons t re ih =>
    intro s h
    rw [List.foldl_cons, output_handler_busy cfg s t h]
    have h2 := ih { s with tasks_ := s.tasks_ ++ [t], log := s.log ++ [Obs.submit t] } h
    rw [h2]
    simp

/-- The `write_handler` closure does not look at its second argument. -/
theorem write_handler_count (cfg : Option SnappyWriter) (s : kcptun_client) (t : Task) (ec : ErrorCode)
    (n m : Nat) (re : List Task) :
    write_handler cfg s t ec n re = write_handler cfg s t ec m re := rfl

/-- On an error `write_handler` returns at once. -/
theorem write_handler_error (cfg : Option SnappyWriter) (s : kcptun_client) (t : Task) (ec : ErrorCode)
    (n : Nat) (re : List Task) (h : ec ≠ 0) : write_handler cfg s t ec n re = s := by
  simp [write_handler, h]

/-- On success `write_handler` calls the callback, if there is one, and then
`try_write_task`. -/
theorem write_handler_success (cfg : Option SnappyWriter) (s : kcptun_client) (t : Task)
    (n : Nat) (re : List Task) :
    write_handler cfg s t 0 n re =
      try_write_task cfg
        (match t.handler with
         | some h => call_handler cfg s h 0 t.len re
         | none => s) := by
  simp [write_handler]

/-- On success `write_handler` calls the callback (whose submissions are only
appended, `writing_` being set) and then `try_write_task`. -/
theorem write_handler_ok (cfg : Option SnappyWriter) (s : kcptun_client) (t : Task)
    (n : Nat) (re : List Task) (hw : s.writing_ = true) :
    write_handler cfg s t 0 n re =
      try_write_task cfg
        { s with tasks_ := s.tasks_ ++ resubmitted t re,
                 log := s.log ++ callback_obs t ++ (resubmitted t re).map Obs.submit } := by
  unfold write_handler resubmitted callback_obs
  cases hh : t.handler with
  | none => simp
  | some h =>
    simp only [call_handler]
    have h2 := foldl_output_handler_busy cfg re
      { s with log := s.log ++ [Obs.call h 0 t.len] } hw
    rw [h2]
    simp

/-- Every transport completion handler that serves a task runs that task's
`write_handler` with the error code it was given. -/
theorem invoke_of_task (cfg : Option SnappyWriter) (s : kcptun_client) (hd : TransportHandler)
    (t : Task) (ec : ErrorCode) (n : Nat) (re : List Task) (h : hd.task = some t) :
    hd.invoke cfg s ec n re = write_handler cfg s t ec 0 re := by
  cases hd with
  | direct h0 =>
    simp [TransportHandler.task] at h
    subst h
    rfl
  | snappy len k =>
    cases k with
    | none => simp [TransportHandler.task] at h
    | some k =>
      cases k with
      | relay len0 h0 =>
        simp [TransportHandler.task] at h
        subst h
        rfl

theorem marks_callback_obs (t : Task) :
    [Mark.issued t, Mark.sent, Mark.completed 0] ++ marks (callback_obs t) = block t := by
  unfold callback_obs block
  cases t.handler <;> rfl

theorem inv_init : Inv kcptun_client.init := by
  left
  exact ⟨rfl, rfl, rfl, rfl⟩

/-- A submission preserves the invariant. -/
theorem inv_output_handler (cfg : Option SnappyWriter) (s : kcptun_client) (t : Task) (h : Inv s) :
    Inv (output_handler cfg s t) := by
  rcases h with ⟨hw, hi, hq, hm⟩ | ⟨d, t0, hd, hw, hi, ht, hs, hm⟩ | ⟨d, t0, ec, hec, hw, hi, hs, hm⟩
  · right; left
    have e : output_handler cfg s t =
        try_write_task cfg { s with tasks_ := [t], log := s.log ++ [Obs.submit t], writing_ := true } := by
      simp [output_handler, hw, hq]
    obtain ⟨hd, b, n, h1, h2, h3, h4, h5, _⟩ := try_write_task_cons cfg
      { s with tasks_ := [t], log := s.log ++ [Obs.submit t], writing_ := true } t [] rfl
    refine ⟨submitted s.log, t, hd, ?_, ?_, h1, ?_, ?_⟩
    · rw [e, h3]
    · rw [e, h4]; simp [hi]
    · rw [e, h5, h2]
      simp [submitted_append, submitted]
    · rw [e, h5]
      simp [marks_append, hm]
      simp [marks, Obs.mark]
  · right; left
    rw [output_handler_busy cfg s t hw]
    refine ⟨d, t0, hd, hw, hi, ht, ?_, ?_⟩
    · simp [submitted_append, hs]
      simp [submitted]
    · simp [marks_append, hm]
      simp [marks, Obs.mark]
  · right; right
    rw [output_handler_busy cfg s t hw]
    refine ⟨d, t0, ec, hec, hw, hi, ?_, ?_⟩
    · simp [submitted_append, hs]
      simp [submitted]
    · simp [marks_append, hm]
      simp [marks, Obs.mark]

theorem submitted_callback_obs (t : Task) : submitted (callback_obs t) = [] := by
  unfold callback_obs
  cases t.handler <;> rfl

/-- With exactly one outstanding write, a completion event completes that
write and runs the `write_handler` of its task. -/
theorem step_complete_single (cfg : Option SnappyWriter) (s s1 : kcptun_client) (hd : TransportHandler)
    (t : Task) (i : Nat) (ec : ErrorCode) (n : Nat) (re : List Task)
    (hi : s.inflight = [hd]) (ht : hd.task = some t)
    (hs : step cfg s (Event.complete i ec n re) = some s1) :
    s1 = write_handler cfg { s with inflight := [], log := s.log ++ [Obs.done ec n] } t ec 0 re := by
  unfold step at hs
  rw [hi] at hs
  cases i with
  | zero =>
    simp at hs
    rw [← hs, invoke_of_task cfg _ hd t ec n re ht]
  | succ j => simp at hs

/-- Without an outstanding write no completion event can happen. -/
theorem step_complete_none (cfg : Option SnappyWriter) (s : kcptun_client) (i : Nat) (ec : ErrorCode)
    (n : Nat) (re : List Task) (hi : s.inflight = []) :
    step cfg s (Event.complete i ec n re) = none := by
  simp [step, hi]

/-- Running `write_handler` after the only outstanding write of a busy
pipeline has completed preserves the invariant. -/
theorem inv_write_handler (cfg : Option SnappyWriter) (m : kcptun_client) (d : List Task) (t : Task)
    (ec : ErrorCode) (re : List Task) (hw : m.writing_ = true) (hi : m.inflight = [])
    (hs : submitted m.log = d ++ t :: m.tasks_)
    (hm : marks m.log = d.flatMap block ++ [Mark.issued t, Mark.sent, Mark.completed ec]) :
    Inv (write_handler cfg m t ec 0 re) := by
  by_cases hec : ec = 0
  · subst hec
    rw [write_handler_ok cfg m t 0 re hw]
    have hcases : m.tasks_ ++ resubmitted t re = [] ∨
        ∃ t1 rest, m.tasks_ ++ resubmitted t re = t1 :: rest := by
      cases m.tasks_ ++ resubmitted t re with
      | nil => left; rfl
      | cons a b => right; exact ⟨a, b, rfl⟩
    rcases hcases with hq | ⟨t1, rest, hq⟩
    · rw [try_write_task_nil cfg _ hq]
      left
      refine ⟨rfl, hi, hq, ?_⟩
      have hs2 : submitted m.log = d ++ [t] ++ m.tasks_ := by simp [hs]
      simp only [marks_append, submitted_append, hm, submitted_map_submit, marks_map_submit,
        submitted_callback_obs, hs2]
      simp only [List.append_nil, List.append_assoc, hq, List.flatMap_append]
      simp [← marks_callback_obs t]
    · obtain ⟨hd, b, k, h1, h2, h3, h4, h5, _⟩ := try_write_task_cons cfg
        { m with tasks_ := m.tasks_ ++ resubmitted t re,
                 log := m.log ++ callback_obs t ++ (resubmitted t re).map Obs.submit } t1 rest hq
      right; left
      refine ⟨d ++ [t], t1, hd, ?_, ?_, h1, ?_, ?_⟩
      · rw [h3]; exact hw
      · rw [h4]; simp [hi]
      · rw [h5, h2]
        simp only [submitted_append, hs, submitted_map_submit, submitted_callback_obs]
        have e3 : submitted [Obs.start t1, Obs.xmit b k] = [] := rfl
        rw [e3]
        simp only [List.append_nil, List.append_assoc, List.cons_append, List.nil_append]
        rw [← hq]
      · rw [h5]
        simp only [marks_append, hm, marks_map_submit]
        have e3 : marks [Obs.start t1, Obs.xmit b k] = [Mark.issued t1, Mark.sent] := rfl
        rw [e3]
        simp [← marks_callback_obs t]
  · rw [write_handler_error cfg m t ec 0 re hec]
    right; right
    exact ⟨d, t, ec, hec, hw, hi, hs, hm⟩

/-- Every turn of the event loop preserves the invariant. -/
theorem inv_step (cfg : Option SnappyWriter) (s : kcptun_client) (e : Event) (s1 : kcptun_client) (h : Inv s)
    (hs : step cfg s e = some s1) : Inv s1 := by
  cases e with
  | submit t =>
    simp only [step, Option.some.injEq] at hs
    rw [← hs]
    exact inv_output_handler cfg s t h
  | complete i ec n re =>
    rcases h with ⟨_, hi, _, _⟩ | ⟨d, t0, hd, hw, hi, ht, hsub, hm⟩ | ⟨_, _, _, _, _, hi, _, _⟩
    · rw [step_complete_none cfg s i ec n re hi] at hs
      cases hs
    · rw [step_complete_single cfg s s1 hd t0 i ec n re hi ht hs]
      refine inv_write_handler cfg
        { s with inflight := [], log := s.log ++ [Obs.done ec n] } d t0 ec re hw rfl ?_ ?_
      · simp only [submitted_append, hsub]
        have e1 : submitted [Obs.done ec n] = [] := rfl
        rw [e1]; simp
      · simp only [marks_append, hm]
        have e2 : marks [Obs.done ec n] = [Mark.completed ec] := rfl
        rw [e2]; simp
    · rw [step_complete_none cfg s i ec n re hi] at hs
      cases hs

/-- Run induction: a property preserved by every turn holds after every run. -/
theorem run_preserves (cfg : Option SnappyWriter) (P : kcptun_client → Prop)
    (hP : ∀ s e s1, P s → step cfg s e = some s1 → P s1) :
    ∀ (evs : List Event) (s s1 : kcptun_client), P s → run cfg s evs = some s1 → P s1 := by
  intro evs
  induction evs with
  | nil =>
    intro s s1 h hr
    simp only [run, Option.some.injEq] at hr
    rw [← hr]; exact h
  | cons e es ih =>
    intro s s1 h hr
    simp only [run] at hr
    cases hst : step cfg s e with
    | none => rw [hst] at hr; simp at hr
    | some s2 =>
      rw [hst] at hr
      exact ih s2 s1 (hP s e s2 h hst) hr

/-- The invariant holds in every reachable state. -/
theorem inv_reachable (cfg : Option SnappyWriter) (evs : List Event) (s : kcptun_client)
    (hr : run cfg kcptun_client.init evs = some s) : Inv s :=
  run_preserves cfg Inv (inv_step cfg) evs kcptun_client.init s inv_init hr

theorem started_eq_marks (l : List Obs) : started l = (marks l).filterMap Mark.issuedTask := by
  unfold started marks
  rw [List.filterMap_filterMap]
  congr 1
  funext o
  cases o <;> rfl

theorem calls_eq_marks (l : List Obs) : calls l = (marks l).filterMap Mark.calledWith := by
  unfold calls marks
  rw [List.filterMap_filterMap]
  congr 1
  funext o
  cases o <;> rfl

theorem issued_flatMap_block (d : List Task) :
    (d.flatMap block).filterMap Mark.issuedTask = d := by
  induction d with
  | nil => rfl
  | cons t d ih =>
    rw [List.flatMap_cons, List.filterMap_append, ih]
    unfold block
    cases t.handler <;> simp [Mark.issuedTask]

theorem called_flatMap_block (d : List Task) :
    (d.flatMap block).filterMap Mark.calledWith = d.filterMap Task.expected_call := by
  induction d with
  | nil => rfl
  | cons t d ih =>
    rw [List.flatMap_cons, List.filterMap_append, ih]
    unfold block
    cases hh : t.handler <;> simp [Mark.calledWith, Task.expected_call, hh]

/-- A failed completion in the pipeline trace comes from a failed completion in
the log. -/
theorem done_of_completed (l : List Obs) (ec : ErrorCode) (h : Mark.completed ec ∈ marks l) :
    ∃ n, Obs.done ec n ∈ l := by
  unfold marks at h
  rw [List.mem_filterMap] at h
  obtain ⟨o, ho, hm⟩ := h
  cases o with
  | done ec1 n =>
    simp [Obs.mark] at hm
    subst hm
    exact ⟨n, ho⟩
  | submit t => simp [Obs.mark] at hm
  | start t => simp [Obs.mark] at hm
  | xmit b n => simp [Obs.mark] at hm
  | call h ec1 n => simp [Obs.mark] at hm

/-- In every state that satisfies the invariant the issued tasks followed by
the queued tasks are the submitted tasks. -/
theorem started_tasks_of_inv (s : kcptun_client) (h : Inv s) :
    started s.log ++ s.tasks_ = submitted s.log := by
  rw [started_eq_marks]
  rcases h with ⟨_, _, hq, hm⟩ | ⟨d, t0, hd, _, _, _, hs, hm⟩ | ⟨d, t0, ec, _, _, _, hs, hm⟩
  · rw [hm, issued_flatMap_block, hq]; simp
  · rw [hm, hs, List.filterMap_append, issued_flatMap_block]
    simp [Mark.issuedTask]
  · rw [hm, hs, List.filterMap_append, issued_flatMap_block]
    simp [Mark.issuedTask]

/-- At most one write is outstanding in a state that satisfies the
invariant. -/
theorem inflight_le_one_of_inv (s : kcptun_client) (h : Inv s) : s.inflight.length ≤ 1 := by
  rcases h with ⟨_, hi, _, _⟩ | ⟨_, _, _, _, hi, _, _, _⟩ | ⟨_, _, _, _, _, hi, _, _⟩ <;>
    simp [hi]

/-- Where `writing_` is clear in a state that satisfies the invariant, the
pipeline is idle. -/
theorem idle_of_inv (s : kcptun_client) (h : Inv s) (hw : s.writing_ = false) : Idle s := by
  rcases h with hI | ⟨_, _, _, hw1, _, _, _, _⟩ | ⟨_, _, _, _, hw1, _, _, _⟩
  · exact hI
  · rw [hw] at hw1; cases hw1
  · rw [hw] at hw1; cases hw1

theorem verbatim_try_write_task (s : kcptun_client) (h : Verbatim s.log) :
    Verbatim (try_write_task none s).log := by
  have hcases : s.tasks_ = [] ∨ ∃ t rest, s.tasks_ = t :: rest := by
    cases s.tasks_ with
    | nil => left; rfl
    | cons a b => right; exact ⟨a, b, rfl⟩
  rcases hcases with hq | ⟨t, rest, hq⟩
  · rw [try_write_task_nil none s hq]; exact h
  · obtain ⟨hd, b, n, _, _, _, _, h5, h6⟩ := try_write_task_cons none s t rest hq
    obtain ⟨_, hb, hn⟩ := h6 rfl
    unfold Verbatim at *
    rw [h5, xmits_append, started_append, h, hb, hn]
    simp [xmits, started, Task.span]

theorem verbatim_output_handler (s : kcptun_client) (t : Task) (h : Verbatim s.log) :
    Verbatim (output_handler none s t).log := by
  have h1 : Verbatim (s.log ++ [Obs.submit t]) := by
    unfold Verbatim at *
    rw [xmits_append, started_append, h]
    simp [xmits, started]
  unfold output_handler
  by_cases hw : s.writing_ = false
  · simp only [hw, if_true]
    exact verbatim_try_write_task _ h1
  · simp only [hw, if_false]
    exact h1

theorem verbatim_foldl (re : List Task) :
    ∀ s : kcptun_client, Verbatim s.log → Verbatim (re.foldl (output_handler none) s).log := by
  induction re with
  | nil => intro s h; exact h
  | cons t re ih =>
    intro s h
    rw [List.foldl_cons]
    exact ih _ (verbatim_output_handler s t h)

theorem verbatim_write_handler (s : kcptun_client) (t : Task) (ec : ErrorCode) (n : Nat)
    (re : List Task) (h : Verbatim s.log) : Verbatim (write_handler none s t ec n re).log := by
  by_cases hec : ec = 0
  · subst hec
    rw [write_handler_success]
    apply verbatim_try_write_task
    cases t.handler with
    | none => exact h
    | some hh =>
      simp only [call_handler]
      apply verbatim_foldl
      unfold Verbatim at *
      simp only [xmits_append, started_append, h]
      simp [xmits, started]
  · rw [write_handler_error none s t ec n re hec]
    exact h

theorem verbatim_step (s : kcptun_client) (e : Event) (s1 : kcptun_client) (h : Verbatim s.log)
    (hs : step none s e = some s1) : Verbatim s1.log := by
  cases e with
  | submit t =>
    simp only [step, Option.some.injEq] at hs
    rw [← hs]
    exact verbatim_output_handler s t h
  | complete i ec n re =>
    simp only [step] at hs
    cases hget : s.inflight[i]? with
    | none => rw [hget] at hs; cases hs
    | some hd =>
      rw [hget] at hs
      simp only [Option.some.injEq] at hs
      rw [← hs]
      have h1 : Verbatim (s.log ++ [Obs.done ec n]) := by
        unfold Verbatim at *
        rw [xmits_append, started_append, h]
        simp [xmits, started]
      cases hd with
      | direct h0 => exact verbatim_write_handler _ h0.task ec n re h1
      | snappy len k =>
        cases k with
        | none => exact h1
        | some k =>
          cases k with
          | relay len0 h0 => exact verbatim_write_handler _ h0.task ec len0 re h1

/-- Claim C1.  In every state reachable from the initial state by submissions
and transport completions (whose callbacks may submit re-entrantly), at most
one transport write is outstanding.  A submission made while the pipeline is
idle (`writing_` clear) has its write issued at once: afterwards the queue is
empty and the one outstanding write is the one of the submitted task.  A
submission made while the pipeline is busy (`writing_` set) is only appended
to the queue.  While a completion callback runs no write is outstanding, and
the tasks it submits re-entrantly are only appended to the queue. -/
theorem C1_single_outstanding_write (cfg : Option SnappyWriter) (evs : List Event) (s : kcptun_client)
    (hr : run cfg kcptun_client.init evs = some s) :
    s.inflight.length ≤ 1 ∧
    (∀ t, s.writing_ = false → ∃ hd b n, hd.task = some t ∧
      (output_handler cfg s t).inflight = [hd] ∧
      (output_handler cfg s t).tasks_ = [] ∧
      (output_handler cfg s t).log = s.log ++ [Obs.submit t, Obs.start t, Obs.xmit b n]) ∧
    (∀ t, s.writing_ = true →
      output_handler cfg s t =
        { s with tasks_ := s.tasks_ ++ [t], log := s.log ++ [Obs.submit t] }) ∧
    (∀ i hd ec n h len re, s.inflight[i]? = some hd →
      (call_handler cfg
          { s with inflight := s.inflight.eraseIdx i, log := s.log ++ [Obs.done ec n] }
          h ec len re).inflight = [] ∧
      (call_handler cfg
          { s with inflight := s.inflight.eraseIdx i, log := s.log ++ [Obs.done ec n] }
          h ec len re).tasks_ = s.tasks_ ++ re) := by
  have hinv := inv_reachable cfg evs s hr
  refine ⟨inflight_le_one_of_inv s hinv, ?_, ?_, ?_⟩
  · intro t hw
    obtain ⟨_, hi, hq, _⟩ := idle_of_inv s hinv hw
    have e : output_handler cfg s t =
        try_write_task cfg { s with tasks_ := [t], log := s.log ++ [Obs.submit t], writing_ := true } := by
      simp [output_handler, hw, hq]
    obtain ⟨hd, b, n, h1, h2, _, h4, h5, _⟩ := try_write_task_cons cfg
      { s with tasks_ := [t], log := s.log ++ [Obs.submit t], writing_ := true } t [] rfl
    refine ⟨hd, b, n, h1, ?_, ?_, ?_⟩
    · rw [e, h4]; simp [hi]
    · rw [e, h2]
    · rw [e, h5]; simp
  · intro t hw
    exact output_handler_busy cfg s t hw
  · intro i hd ec n h len re hget
    rcases hinv with ⟨_, hi, _, _⟩ | ⟨_, _, hd0, hw, hi, _, _, _⟩ | ⟨_, _, _, _, _, hi, _, _⟩
    · rw [hi] at hget; simp at hget
    · have hi0 : i = 0 := by
        rw [hi] at hget
        cases i with
        | zero => rfl
        | succ j => simp at hget
      subst hi0
      unfold call_handler
      have h2 := foldl_output_handler_busy cfg re
        { s with inflight := s.inflight.eraseIdx 0,
                 log := s.log ++ [Obs.done ec n] ++ [Obs.call h ec len] } hw
      simp only [List.append_assoc] at h2 ⊢
      rw [h2]
      simp [hi]
    · rw [hi] at hget; simp at hget

/-- Claim C2.  After every sequence of submissions and completions the tasks
for which a write has been issued, followed by the tasks still queued, are
exactly the submitted tasks in submission order; so the issued
`(buffer, length)` pairs are a prefix of the submitted ones at every moment
and are all of them once the queue is empty.  With compression disabled the
writes that reach the transport carry exactly the buffers and lengths of the
issued tasks. -/
theorem C2_fifo_order (cfg : Option SnappyWriter) (evs : List Event) (s : kcptun_client)
    (hr : run cfg kcptun_client.init evs = some s) :
    started s.log ++ s.tasks_ = submitted s.log ∧
    (started s.log).map Task.span <+: (submitted s.log).map Task.span ∧
    (s.tasks_ = [] → (started s.log).map Task.span = (submitted s.log).map Task.span) ∧
    (cfg = none → xmits s.log = (started s.log).map Task.span) := by
  have hinv := inv_reachable cfg evs s hr
  have h1 := started_tasks_of_inv s hinv
  refine ⟨h1, ?_, ?_, ?_⟩
  · rw [← h1, List.map_append]
    exact List.prefix_append _ _
  · intro hq
    rw [← h1, hq, List.append_nil]
  · intro hc
    subst hc
    exact run_preserves none (fun c => Verbatim c.log) verbatim_step evs kcptun_client.init s rfl hr

theorem calls_map_submit (re : List Task) : calls (re.map Obs.submit) = [] := by
  rw [calls_eq_marks, marks_map_submit]; rfl

theorem started_map_submit (re : List Task) : started (re.map Obs.submit) = [] := by
  rw [started_eq_marks, marks_map_submit]; rfl

theorem xmits_map_submit (re : List Task) : xmits (re.map Obs.submit) = [] := by
  induction re with
  | nil => rfl
  | cons t re ih =>
    have h : xmits (Obs.submit t :: re.map Obs.submit) = xmits (re.map Obs.submit) := rfl
    simp [h, ih]

theorem calls_callback_obs (t : Task) : calls (callback_obs t) = t.expected_call.toList := by
  unfold callback_obs Task.expected_call
  cases t.handler <;> rfl

/-- The function `try_write_task` calls no callback. -/
theorem calls_try_write_task (cfg : Option SnappyWriter) (s : kcptun_client) :
    calls (try_write_task cfg s).log = calls s.log := by
  have hcases : s.tasks_ = [] ∨ ∃ t rest, s.tasks_ = t :: rest := by
    cases s.tasks_ with
    | nil => left; rfl
    | cons a b => right; exact ⟨a, b, rfl⟩
  rcases hcases with hq | ⟨t, rest, hq⟩
  · rw [try_write_task_nil cfg s hq]
  · obtain ⟨hd, b, n, _, _, _, _, h5, _⟩ := try_write_task_cons cfg s t rest hq
    rw [h5, calls_append]
    simp [calls]

/-- A completion event in a reachable state completes the write of the task
issued last; if it reports an error the state is left as it is, with
`writing_` still set. -/
theorem step_complete_of_inv (cfg : Option SnappyWriter) (s s1 : kcptun_client) (i : Nat)
    (ec : ErrorCode) (n : Nat) (re : List Task) (h : Inv s)
    (hs : step cfg s (Event.complete i ec n re) = some s1) :
    ∃ d t hd, s.writing_ = true ∧ s.inflight = [hd] ∧ hd.task = some t ∧
      started s.log = d ++ [t] ∧ submitted s.log = d ++ t :: s.tasks_ ∧
      s1 = write_handler cfg { s with inflight := [], log := s.log ++ [Obs.done ec n] } t ec 0 re := by
  rcases h with ⟨_, hi, _, _⟩ | ⟨d, t0, hd, hw, hi, ht, hsub, hm⟩ | ⟨_, _, _, _, _, hi, _, _⟩
  · rw [step_complete_none cfg s i ec n re hi] at hs
    cases hs
  · refine ⟨d, t0, hd, hw, hi, ht, ?_, hsub, step_complete_single cfg s s1 hd t0 i ec n re hi ht hs⟩
    rw [started_eq_marks, hm, List.filterMap_append, issued_flatMap_block]
    simp [Mark.issuedTask]
  · rw [step_complete_none cfg s i ec n re hi] at hs
    cases hs

/-- The callbacks called by a successful `write_handler` while `writing_` is
set: the one of its task, with the task's length. -/
theorem calls_write_handler_ok (cfg : Option SnappyWriter) (m : kcptun_client) (t : Task)
    (re : List Task) (hw : m.writing_ = true) :
    calls (write_handler cfg m t 0 0 re).log = calls m.log ++ t.expected_call.toList := by
  rw [write_handler_ok cfg m t 0 re hw, calls_try_write_task]
  simp only [calls_append, calls_map_submit, calls_callback_obs, List.append_nil]

/-- From a stalled state only submissions can happen, and they only grow the
queue. -/
theorem stall_run (cfg : Option SnappyWriter) :
    ∀ (evs : List Event) (s s2 : kcptun_client), Stall s → run cfg s evs = some s2 →
      Stall s2 ∧ ∃ ts : List Task, ts.length = evs.length ∧ s2.tasks_ = s.tasks_ ++ ts ∧
        s2.log = s.log ++ ts.map Obs.submit := by
  intro evs
  induction evs with
  | nil =>
    intro s s2 h hr
    simp only [run, Option.some.injEq] at hr
    subst hr
    exact ⟨h, [], rfl, by simp, by simp⟩
  | cons e es ih =>
    intro s s2 h hr
    simp only [run] at hr
    cases e with
    | submit t =>
      simp only [step, Option.some_bind] at hr
      rw [output_handler_busy cfg s t h.1] at hr
      obtain ⟨h2, ts, hl, ht, hlog⟩ := ih
        { s with tasks_ := s.tasks_ ++ [t], log := s.log ++ [Obs.submit t] } s2 ⟨h.1, h.2⟩ hr
      refine ⟨h2, t :: ts, by simp [hl], ?_, ?_⟩
      · rw [ht]; simp
      · rw [hlog]; simp
    | complete i ec n re =>
      rw [step_complete_none cfg s i ec n re h.2] at hr
      simp at hr

/-- The callbacks called so far are those owed to an initial part of the
submitted tasks. -/
theorem calls_of_inv (s : kcptun_client) (h : Inv s) :
    ∃ d, d <+: submitted s.log ∧ calls s.log = d.filterMap Task.expected_call := by
  rw [calls_eq_marks]
  rcases h with ⟨_, _, _, hm⟩ | ⟨d, t0, _, _, _, _, hs, hm⟩ | ⟨d, t0, ec, _, _, _, hs, hm⟩
  · exact ⟨submitted s.log, List.prefix_refl _, by rw [hm, called_flatMap_block]⟩
  · refine ⟨d, by rw [hs]; exact List.prefix_append _ _, ?_⟩
    rw [hm, List.filterMap_append, called_flatMap_block]
    simp [Mark.calledWith]
  · refine ⟨d, by rw [hs]; exact List.prefix_append _ _, ?_⟩
    rw [hm, List.filterMap_append, called_flatMap_block]
    simp [Mark.calledWith]

/-- After a failed completion in a reachable state the pipeline has stalled
and nothing but the completion was logged. -/
theorem step_failure_of_inv (cfg : Option SnappyWriter) (s s1 : kcptun_client) (i : Nat)
    (ec : ErrorCode) (n : Nat) (re : List Task) (h : Inv s) (hec : ec ≠ 0)
    (hs : step cfg s (Event.complete i ec n re) = some s1) :
    Stall s1 ∧ s1.tasks_ = s.tasks_ ∧ s1.log = s.log ++ [Obs.done ec n] := by
  obtain ⟨d, t, hd, hw, _, _, _, _, e⟩ := step_complete_of_inv cfg s s1 i ec n re h hs
  rw [write_handler_error cfg _ t ec 0 re hec] at e
  subst e
  exact ⟨⟨hw, rfl⟩, rfl, rfl⟩

/-- A successful completion in a reachable state calls the callback of the
task issued last, with that task's length, and no other callback. -/
theorem step_success_of_inv (cfg : Option SnappyWriter) (s s1 : kcptun_client) (i : Nat)
    (n : Nat) (re : List Task) (h : Inv s)
    (hs : step cfg s (Event.complete i 0 n re) = some s1) :
    ∃ d t hd, s.inflight = [hd] ∧ hd.task = some t ∧ started s.log = d ++ [t] ∧
      calls s1.log = calls s.log ++ t.expected_call.toList := by
  obtain ⟨d, t, hd, hw, hi, ht, hst, _, e⟩ := step_complete_of_inv cfg s s1 i 0 n re h hs
  refine ⟨d, t, hd, hi, ht, hst, ?_⟩
  have h2 := calls_write_handler_ok cfg
    { s with inflight := [], log := s.log ++ [Obs.done 0 n] } t re hw
  rw [e, h2, calls_append]
  simp [calls]

/-- Claim C3.  Take a run in which every transport completion reported
success and after which the queue is empty and no write is outstanding.  Then
the pipeline trace is the concatenation, over the submitted tasks in
submission order, of: write issued, write sent, write completed, callback
called (the last only for a task with a non-null callback).  So the callback
of each such task is called exactly once, after the completion of its own
write and before the write of the next task is issued, also when callbacks
submitted tasks themselves.  The callback invocations are, in order, those
owed to the submitted tasks. -/
theorem C3_callback_exactly_once (cfg : Option SnappyWriter) (evs : List Event) (s : kcptun_client)
    (hr : run cfg kcptun_client.init evs = some s)
    (hok : ∀ ec n, Obs.done ec n ∈ s.log → ec = 0)
    (_hq : s.tasks_ = []) (hi : s.inflight = []) :
    marks s.log = (submitted s.log).flatMap block ∧
    calls s.log = (submitted s.log).filterMap Task.expected_call := by
  have hinv := inv_reachable cfg evs s hr
  have hm : marks s.log = (submitted s.log).flatMap block := by
    rcases hinv with ⟨_, _, _, hm⟩ | ⟨_, _, _, _, hi1, _, _, _⟩ | ⟨_, _, ec, hec, _, _, _, hm⟩
    · exact hm
    · rw [hi] at hi1; cases hi1
    · exfalso
      have hmem : Mark.completed ec ∈ marks s.log := by rw [hm]; simp
      obtain ⟨n, hn⟩ := done_of_completed s.log ec hmem
      exact hec (hok ec n hn)
  refine ⟨hm, ?_⟩
  rw [calls_eq_marks, hm, called_flatMap_block]

/-- Claim C4.  When the transport write of a task completes with an error in
a reachable state, no callback is called in that turn, the queue is left as it
was, and in every later state the tasks that were queued at that moment are
still queued (at the front of the queue); no further write is ever issued or
sent and no callback is ever called. -/
theorem C4_failed_write_halts (cfg : Option SnappyWriter) (evs : List Event) (s s1 s2 : kcptun_client)
    (i : Nat) (ec : ErrorCode) (n : Nat) (re : List Task) (later : List Event)
    (hr : run cfg kcptun_client.init evs = some s) (hec : ec ≠ 0)
    (hs : step cfg s (Event.complete i ec n re) = some s1)
    (hl : run cfg s1 later = some s2) :
    calls s1.log = calls s.log ∧ s1.tasks_ = s.tasks_ ∧
    s.tasks_ <+: s2.tasks_ ∧
    started s2.log = started s.log ∧ xmits s2.log = xmits s.log ∧
    calls s2.log = calls s.log := by
  obtain ⟨hst, ht, hlog⟩ := step_failure_of_inv cfg s s1 i ec n re
    (inv_reachable cfg evs s hr) hec hs
  obtain ⟨_, ts, _, ht2, hlog2⟩ := stall_run cfg later s1 s2 hst hl
  refine ⟨?_, ht, ?_, ?_, ?_, ?_⟩
  · rw [hlog, calls_append]; simp [calls]
  · rw [ht2, ht]; exact List.prefix_append _ _
  · rw [hlog2, hlog, started_append, started_append, started_map_submit]; simp [started]
  · rw [hlog2, hlog, xmits_append, xmits_append, xmits_map_submit]; simp [xmits]
  · rw [hlog2, hlog, calls_append, calls_append, calls_map_submit]; simp [calls]

/-- Claim C5, as amended.  With compression disabled, when the transport
completes the outstanding write in a reachable state, that write is the one of
the task issued last.  If the transport reports success, the task's callback
(if non-null) is called once, with the success code and the length the task
was submitted with, whatever byte count the transport reported; if the
transport reports an error no callback is called. -/
theorem C5_callback_arguments (evs : List Event) (s s1 : kcptun_client) (i : Nat) (ec : ErrorCode)
    (n : Nat) (re : List Task)
    (hr : run none kcptun_client.init evs = some s)
    (hs : step none s (Event.complete i ec n re) = some s1) :
    ∃ d t hd, s.inflight = [hd] ∧ hd.task = some t ∧ started s.log = d ++ [t] ∧
      (ec = 0 → calls s1.log = calls s.log ++ t.expected_call.toList) ∧
      (ec ≠ 0 → calls s1.log = calls s.log) := by
  have hinv := inv_reachable none evs s hr
  obtain ⟨d, t, hd, _, hi, ht, hst, _, _⟩ := step_complete_of_inv none s s1 i ec n re hinv hs
  refine ⟨d, t, hd, hi, ht, hst, ?_, ?_⟩
  · intro hec
    subst hec
    obtain ⟨d2, t2, hd2, hi2, ht2, _, hc⟩ := step_success_of_inv none s s1 i n re hinv hs
    rw [hi] at hi2
    simp only [List.cons.injEq, and_true] at hi2
    subst hi2
    rw [ht] at ht2
    simp only [Option.some.injEq] at ht2
    subst ht2
    exact hc
  · intro hec
    obtain ⟨_, _, hlog⟩ := step_failure_of_inv none s s1 i ec n re hinv hec hs
    rw [hlog, calls_append]; simp [calls]

/-- Claim C6.  With compression enabled, whatever chunks the compression
writer hands to `snappy_stream_writer_output_handler`: every callback
invocation in a reachable state is the callback of a submitted task, called
with a success code and with the length that task was submitted with; and when
the transport reports success for the outstanding write, whatever byte count
it reports, the callback of the task issued last is called with that task's
submitted length. -/
theorem C6_uncompressed_length (w : SnappyWriter) (evs : List Event) (s : kcptun_client)
    (hr : run (some w) kcptun_client.init evs = some s) :
    (∀ h ec len, (h, ec, len) ∈ calls s.log →
      ∃ t, t ∈ submitted s.log ∧ t.handler = some h ∧ ec = 0 ∧ len = t.len) ∧
    (∀ i n re s1, step (some w) s (Event.complete i 0 n re) = some s1 →
      ∃ d t hd, s.inflight = [hd] ∧ hd.task = some t ∧ started s.log = d ++ [t] ∧
        calls s1.log = calls s.log ++ t.expected_call.toList) := by
  have hinv := inv_reachable (some w) evs s hr
  constructor
  · intro h ec len hmem
    obtain ⟨d, hd, hc⟩ := calls_of_inv s hinv
    rw [hc, List.mem_filterMap] at hmem
    obtain ⟨t, htd, hte⟩ := hmem
    refine ⟨t, hd.subset htd, ?_⟩
    unfold Task.expected_call at hte
    cases hh : t.handler with
    | none => rw [hh] at hte; simp at hte
    | some h0 =>
      rw [hh] at hte
      simp at hte
      obtain ⟨a, b, c⟩ := hte
      exact ⟨by rw [a], b.symm, c.symm⟩
  · intro i n re s1 hs
    exact step_success_of_inv (some w) s s1 i n re hinv hs

/-- Claim C10.  Once a transport write has completed with an error in a
reachable state, in every later state `writing_` is still set and no write is
outstanding, so no completion can be delivered again; every further
submission is only appended to the queue and makes it one longer; no write
is sent and no callback is called after the failure; and the queue has grown
by exactly one task per later event. -/
theorem C10_permanent_stall (cfg : Option SnappyWriter) (evs : List Event) (s s1 s2 : kcptun_client)
    (i : Nat) (ec : ErrorCode) (n : Nat) (re : List Task) (later : List Event)
    (hr : run cfg kcptun_client.init evs = some s) (hec : ec ≠ 0)
    (hs : step cfg s (Event.complete i ec n re) = some s1)
    (hl : run cfg s1 later = some s2) :
    s2.writing_ = true ∧ s2.inflight = [] ∧
    (∀ j ec2 n2 re2, step cfg s2 (Event.complete j ec2 n2 re2) = none) ∧
    (∀ t, output_handler cfg s2 t =
      { s2 with tasks_ := s2.tasks_ ++ [t], log := s2.log ++ [Obs.submit t] }) ∧
    (∀ t, (output_handler cfg s2 t).tasks_.length = s2.tasks_.length + 1) ∧
    xmits s2.log = xmits s1.log ∧ calls s2.log = calls s1.log ∧
    s2.tasks_.length = s1.tasks_.length + later.length := by
  obtain ⟨hst, _, _⟩ := step_failure_of_inv cfg s s1 i ec n re
    (inv_reachable cfg evs s hr) hec hs
  obtain ⟨hst2, ts, hlen, ht2, hlog2⟩ := stall_run cfg later s1 s2 hst hl
  refine ⟨hst2.1, hst2.2, ?_, ?_, ?_, ?_, ?_, ?_⟩
  · intro j ec2 n2 re2
    exact step_complete_none cfg s2 j ec2 n2 re2 hst2.2
  · intro t
    exact output_handler_busy cfg s2 t hst2.1
  · intro t
    rw [output_handler_busy cfg s2 t hst2.1]
    simp
  · rw [hlog2, xmits_append, xmits_map_submit]; simp
  · rw [hlog2, calls_append, calls_map_submit]; simp
  · rw [ht2, List.length_append, hlen]

theorem upstream_ops_append (a b : List SessOp) :
    upstream_ops (a ++ b) = upstream_ops a ++ upstream_ops b := by
  simp [upstream_ops]

theorem downstream_ops_append (a b : List SessOp) :
    downstream_ops (a ++ b) = downstream_ops a ++ downstream_ops b := by
  simp [downstream_ops]

/-- A downstream completion leaves the upstream direction as it is. -/
theorem step_sess_read_done (s s1 : kcptun_client_session) (ec : ErrorCode) (len : Nat)
    (h : s.step (SessEvent.sess_read_done ec len) = some s1) :
    s.pipe2 = some PipeHandler.read_handler ∧ s1.pipe1 = s.pipe1 ∧
    (ec ≠ 0 → s1.pipe2 = none ∧ s1.ops = s.ops ++ [SessOp.cancel]) ∧
    (ec = 0 → s1.pipe2 = some PipeHandler.write_handler ∧
      s1.ops = s.ops ++ [SessOp.sock_write len]) := by
  simp only [kcptun_client_session.step] at h
  split at h
  · rename_i hp
    simp only [Option.some.injEq] at h
    subst h
    refine ⟨hp, ?_, ?_, ?_⟩
    · unfold kcptun_client_session.pipe2_read_handler; split <;> rfl
    · intro hec; simp [kcptun_client_session.pipe2_read_handler, hec]
    · intro hec; simp [kcptun_client_session.pipe2_read_handler, hec]
  · cases h

theorem step_sock_write_done (s s1 : kcptun_client_session) (ec : ErrorCode) (n : Nat)
    (h : s.step (SessEvent.sock_write_done ec n) = some s1) :
    s.pipe2 = some PipeHandler.write_handler ∧ s1.pipe1 = s.pipe1 ∧
    (ec ≠ 0 → s1.pipe2 = none ∧ s1.ops = s.ops ++ [SessOp.destroy]) ∧
    (ec = 0 → s1.pipe2 = some PipeHandler.read_handler ∧
      s1.ops = s.ops ++ [SessOp.sess_read]) := by
  simp only [kcptun_client_session.step] at h
  split at h
  · rename_i hp
    simp only [Option.some.injEq] at h
    subst h
    refine ⟨hp, ?_, ?_, ?_⟩
    · unfold kcptun_client_session.pipe2_write_handler; split <;> rfl
    · intro hec; simp [kcptun_client_session.pipe2_write_handler, hec]
    · intro hec
      simp [kcptun_client_session.pipe2_write_handler, hec, kcptun_client_session.do_pipe2]
  · cases h

theorem step_sock_read_done (s s1 : kcptun_client_session) (ec : ErrorCode) (len : Nat)
    (h : s.step (SessEvent.sock_read_done ec len) = some s1) :
    s.pipe1 = some PipeHandler.read_handler ∧ s1.pipe2 = s.pipe2 ∧
    (ec ≠ 0 → s1.pipe1 = none ∧ s1.ops = s.ops ++ [SessOp.destroy]) ∧
    (ec = 0 → s1.pipe1 = some PipeHandler.write_handler ∧
      s1.ops = s.ops ++ [SessOp.sess_write len]) := by
  simp only [kcptun_client_session.step] at h
  split at h
  · rename_i hp
    simp only [Option.some.injEq] at h
    subst h
    refine ⟨hp, ?_, ?_, ?_⟩
    · unfold kcptun_client_session.pipe1_read_handler; split <;> rfl
    · intro hec; simp [kcptun_client_session.pipe1_read_handler, hec]
    · intro hec; simp [kcptun_client_session.pipe1_read_handler, hec]
  · cases h

theorem step_sess_write_done (s s1 : kcptun_client_session) (ec : ErrorCode) (n : Nat)
    (h : s.step (SessEvent.sess_write_done ec n) = some s1) :
    s.pipe1 = some PipeHandler.write_handler ∧ s1.pipe2 = s.pipe2 ∧
    (ec ≠ 0 → s1.pipe1 = none ∧ s1.ops = s.ops ++ [SessOp.cancel]) ∧
    (ec = 0 → s1.pipe1 = some PipeHandler.read_handler ∧
      s1.ops = s.ops ++ [SessOp.sock_read]) := by
  simp only [kcptun_client_session.step] at h
  split at h
  · rename_i hp
    simp only [Option.some.injEq] at h
    subst h
    refine ⟨hp, ?_, ?_, ?_⟩
    · unfold kcptun_client_session.pipe1_write_handler; split <;> rfl
    · intro hec; simp [kcptun_client_session.pipe1_write_handler, hec]
    · intro hec
      simp [kcptun_client_session.pipe1_write_handler, hec, kcptun_client_session.do_pipe1]
  · cases h

/-- Induction over the turns of a forwarder. -/
theorem session_exec_preserves (P : kcptun_client_session → Prop) (ok : SessEvent → Prop)
    (hP : ∀ s e s1, P s → ok e → s.step e = some s1 → P s1) :
    ∀ (evs : List SessEvent) (s s2 : kcptun_client_session), P s → (∀ e ∈ evs, ok e) →
      s.exec evs = some s2 → P s2 := by
  intro evs
  induction evs with
  | nil =>
    intro s s2 h _ hr
    simp only [kcptun_client_session.exec, Option.some.injEq] at hr
    rw [← hr]; exact h
  | cons e es ih =>
    intro s s2 h hok hr
    simp only [kcptun_client_session.exec] at hr
    cases hst : s.step e with
    | none => rw [hst] at hr; simp at hr
    | some s1 =>
      rw [hst] at hr
      exact ih s1 s2 (hP s e s1 h (hok e (List.mem_cons_self _ _)) hst)
        (fun x hx => hok x (List.mem_cons_of_mem _ hx)) hr

/-- Once the upstream direction has no operation outstanding, it never has
one again and no upstream operation is issued. -/
theorem upstream_stopped (l : List SessOp) (evs : List SessEvent)
    (s s2 : kcptun_client_session) (hp : s.pipe1 = none) (hl : upstream_ops s.ops = l)
    (hr : s.exec evs = some s2) : s2.pipe1 = none ∧ upstream_ops s2.ops = l := by
  refine session_exec_preserves (fun c => c.pipe1 = none ∧ upstream_ops c.ops = l)
    (fun _ => True) ?_ evs s s2 ⟨hp, hl⟩ (fun _ _ => trivial) hr
  intro c e c1 ⟨h1, h2⟩ _ hst
  cases e with
  | sock_read_done ec len =>
    obtain ⟨hq, _⟩ := step_sock_read_done c c1 ec len hst
    rw [h1] at hq; cases hq
  | sess_write_done ec n =>
    obtain ⟨hq, _⟩ := step_sess_write_done c c1 ec n hst
    rw [h1] at hq; cases hq
  | sess_read_done ec len =>
    obtain ⟨_, hq, he, hk⟩ := step_sess_read_done c c1 ec len hst
    refine ⟨by rw [hq, h1], ?_⟩
    by_cases hec : ec = 0
    · rw [(hk hec).2, upstream_ops_append, h2]; simp [upstream_ops]
    · rw [(he hec).2, upstream_ops_append, h2]; simp [upstream_ops]
  | sock_write_done ec n =>
    obtain ⟨_, hq, he, hk⟩ := step_sock_write_done c c1 ec n hst
    refine ⟨by rw [hq, h1], ?_⟩
    by_cases hec : ec = 0
    · rw [(hk hec).2, upstream_ops_append, h2]; simp [upstream_ops]
    · rw [(he hec).2, upstream_ops_append, h2]; simp [upstream_ops]

/-- Once the downstream direction has no operation outstanding, it never has
one again and no downstream operation is issued. -/
theorem downstream_stopped (l : List SessOp) (evs : List SessEvent)
    (s s2 : kcptun_client_session) (hp : s.pipe2 = none) (hl : downstream_ops s.ops = l)
    (hr : s.exec evs = some s2) : s2.pipe2 = none ∧ downstream_ops s2.ops = l := by
  refine session_exec_preserves (fun c => c.pipe2 = none ∧ downstream_ops c.ops = l)
    (fun _ => True) ?_ evs s s2 ⟨hp, hl⟩ (fun _ _ => trivial) hr
  intro c e c1 ⟨h1, h2⟩ _ hst
  cases e with
  | sess_read_done ec len =>
    obtain ⟨hq, _⟩ := step_sess_read_done c c1 ec len hst
    rw [h1] at hq; cases hq
  | sock_write_done ec n =>
    obtain ⟨hq, _⟩ := step_sock_write_done c c1 ec n hst
    rw [h1] at hq; cases hq
  | sock_read_done ec len =>
    obtain ⟨_, hq, he, hk⟩ := step_sock_read_done c c1 ec len hst
    refine ⟨by rw [hq, h1], ?_⟩
    by_cases hec : ec = 0
    · rw [(hk hec).2, downstream_ops_append, h2]; simp [downstream_ops]
    · rw [(he hec).2, downstream_ops_append, h2]; simp [downstream_ops]
  | sess_write_done ec n =>
    obtain ⟨_, hq, he, hk⟩ := step_sess_write_done c c1 ec n hst
    refine ⟨by rw [hq, h1], ?_⟩
    by_cases hec : ec = 0
    · rw [(hk hec).2, downstream_ops_append, h2]; simp [downstream_ops]
    · rw [(he hec).2, downstream_ops_append, h2]; simp [downstream_ops]

/-- The upstream direction keeps an operation outstanding as long as no
upstream completion reports an error. -/
theorem upstream_keeps_running (evs : List SessEvent) (s s2 : kcptun_client_session)
    (hp : s.pipe1 ≠ none) (hok : ∀ e ∈ evs, SessEvent.upstream_error e = false)
    (hr : s.exec evs = some s2) : s2.pipe1 ≠ none := by
  refine session_exec_preserves (fun c => c.pipe1 ≠ none)
    (fun e => SessEvent.upstream_error e = false) ?_ evs s s2 hp hok hr
  intro c e c1 h1 hne hst
  cases e with
  | sock_read_done ec len =>
    obtain ⟨_, _, _, hk⟩ := step_sock_read_done c c1 ec len hst
    have hec : ec = 0 := by simpa [SessEvent.upstream_error] using hne
    rw [(hk hec).1]; simp
  | sess_write_done ec n =>
    obtain ⟨_, _, _, hk⟩ := step_sess_write_done c c1 ec n hst
    have hec : ec = 0 := by simpa [SessEvent.upstream_error] using hne
    rw [(hk hec).1]; simp
  | sess_read_done ec len =>
    obtain ⟨_, hq, _, _⟩ := step_sess_read_done c c1 ec len hst
    rw [hq]; exact h1
  | sock_write_done ec n =>
    obtain ⟨_, hq, _, _⟩ := step_sock_write_done c c1 ec n hst
    rw [hq]; exact h1

/-- Removing the `i`-th entry of a list splits the list around that entry. -/
theorem eraseIdx_split {α : Type} (l : List α) :
    ∀ (i : Nat) (x : α), l[i]? = some x →
      ∃ a b, l = a ++ x :: b ∧ l.eraseIdx i = a ++ b := by
  induction l with
  | nil => intro i x h; simp at h
  | cons y l ih =>
    intro i x h
    cases i with
    | zero =>
      simp at h
      subst h
      exact ⟨[], l, rfl, rfl⟩
    | succ j =>
      simp at h
      obtain ⟨a, b, h1, h2⟩ := ih j x h
      refine ⟨y :: a, b, ?_, ?_⟩
      · rw [h1]; rfl
      · simp [List.eraseIdx, h2]

theorem distinct_init : Distinct Acceptor.init := by
  constructor
  · simp [Acceptor.init, do_accept, Acceptor.held]
  · intro x hx
    simp [Acceptor.init, do_accept, Acceptor.held] at hx

/-- The state after a successful accept. -/
theorem step_accept_ok (s s1 : Acceptor) (h : s.step (AcceptEvent.accept_done 0) = some s1) :
    s1 = { s with armed := s.armed + 1, accepted := s.accepted + 1,
                  connecting := s.connecting ++ [s.accepted] } := by
  simp only [Acceptor.step] at h
  split at h
  · cases h
  · rename_i hne
    simp only [Option.some.injEq] at h
    subst h
    simp [accept_handler, do_accept, smux.async_connect]
    omega

/-- The state after a failed accept: no accept is armed again. -/
theorem step_accept_error (s s1 : Acceptor) (ec : ErrorCode) (hec : ec ≠ 0)
    (h : s.step (AcceptEvent.accept_done ec) = some s1) :
    s1 = { s with accepting := s.accepting - 1 } := by
  simp only [Acceptor.step] at h
  split at h
  · cases h
  · simp only [Option.some.injEq] at h
    subst h
    simp [accept_handler, hec]

/-- The state after the multiplexer answered a connect. -/
theorem step_connect (s s1 : Acceptor) (i : Nat) (sess : Option Sess)
    (h : s.step (AcceptEvent.connect_done i sess) = some s1) :
    ∃ sock, s.connecting[i]? = some sock ∧
      s1 = connect_handler { s with connecting := s.connecting.eraseIdx i } sock sess := by
  simp only [Acceptor.step] at h
  cases hget : s.connecting[i]? with
  | none => rw [hget] at h; cases h
  | some sock =>
    rw [hget] at h
    simp only [Option.some.injEq] at h
    exact ⟨sock, rfl, h.symm⟩

theorem distinct_step (s : Acceptor) (e : AcceptEvent) (s1 : Acceptor) (h : Distinct s)
    (hs : s.step e = some s1) : Distinct s1 := by
  obtain ⟨hn, hb⟩ := h
  cases e with
  | accept_done ec =>
    by_cases hec : ec = 0
    · subst hec
      rw [step_accept_ok s s1 hs]
      unfold Distinct Acceptor.held at *
      simp only [List.append_assoc, List.singleton_append]
      constructor
      · rw [List.nodup_middle, List.nodup_cons]
        refine ⟨?_, hn⟩
        intro hmem
        exact Nat.lt_irrefl _ (hb _ hmem)
      · intro x hx
        simp only [List.mem_append, List.mem_cons] at hx
        rcases hx with hx | hx | hx
        · exact Nat.lt_succ_of_lt (hb x (List.mem_append_left _ hx))
        · rw [hx]; exact Nat.lt_succ_self _
        · exact Nat.lt_succ_of_lt (hb x (List.mem_append_right _ hx))
    · rw [step_accept_error s s1 ec hec hs]
      exact ⟨hn, hb⟩
  | connect_done i sess =>
    obtain ⟨sock, hget, e1⟩ := step_connect s s1 i sess hs
    obtain ⟨a, b, h1, h2⟩ := eraseIdx_split s.connecting i sock hget
    unfold Distinct Acceptor.held at *
    rw [h1] at hn hb
    cases sess with
    | none =>
      rw [e1]
      simp only [connect_handler, h2]
      constructor
      · simp only [List.append_assoc, List.cons_append] at hn
        rw [List.nodup_middle, List.nodup_cons] at hn
        simpa using hn.2
      · intro x hx
        apply hb
        simp only [List.mem_append, List.mem_cons] at hx ⊢
        tauto
    | some ss =>
      rw [e1]
      simp only [connect_handler, h2, List.map_append, List.map_cons, List.map_nil]
      constructor
      · simp only [List.append_assoc, List.cons_append] at hn
        rw [List.nodup_middle] at hn
        have hp : List.Perm (a ++ b ++ (List.map (fun f => f.1) s.forwarders ++ [sock]))
            (sock :: (a ++ (b ++ List.map (fun f => f.1) s.forwarders))) := by
          rw [← List.append_assoc, ← List.append_assoc]
          refine (List.perm_append_singleton _ _).trans ?_
          simp
        exact hp.nodup_iff.mpr hn
      · intro x hx
        apply hb
        simp only [List.mem_append, List.mem_cons, List.mem_singleton, List.not_mem_nil,
          or_false] at hx ⊢
        tauto

theorem acceptor_exec_preserves (P : Acceptor → Prop)
    (hP : ∀ s e s1, P s → s.step e = some s1 → P s1) :
    ∀ (evs : List AcceptEvent) (s s2 : Acceptor), P s → s.exec evs = some s2 → P s2 := by
  intro evs
  induction evs with
  | nil =>
    intro s s2 h hr
    simp only [Acceptor.exec, Option.some.injEq] at hr
    rw [← hr]; exact h
  | cons e es ih =>
    intro s s2 h hr
    simp only [Acceptor.exec] at hr
    cases hst : s.step e with
    | none => rw [hst] at hr; simp at hr
    | some s1 =>
      rw [hst] at hr
      exact ih s1 s2 (hP s e s1 h hst) hr

/-- Claim C7.  In every reachable state of the acceptor: a successful accept
arms exactly one new accept in the same turn, before any answer of the
multiplexer (so an accept is outstanding afterwards), and hands the accepted socket to a pending connect without
creating a forwarder; when the multiplexer answers a pending connect, a
forwarder holding the accepted socket and the stream is created and started
(both directions armed) if the answer is a stream, and if the answer is null
no forwarder is created and the accepted socket is held by nothing any more;
in both cases the answer itself arms no accept and leaves the outstanding
accept in place; so the forwarders grow by one exactly when the answer is a
stream. -/
theorem C7_acceptor (evs : List AcceptEvent) (s : Acceptor)
    (hr : Acceptor.init.exec evs = some s) :
    (∀ s1, s.step (AcceptEvent.accept_done 0) = some s1 →
      s1.armed = s.armed + 1 ∧ s1.accepting = s.accepting ∧ 0 < s1.accepting ∧
      s1.connecting = s.connecting ++ [s.accepted] ∧ s1.forwarders = s.forwarders) ∧
    (∀ i ss s1, s.step (AcceptEvent.connect_done i (some ss)) = some s1 →
      ∃ sock, s.connecting[i]? = some sock ∧
        s1.forwarders = s.forwarders ++
          [(sock, ss, kcptun_client_session.run kcptun_client_session.init)] ∧
        (kcptun_client_session.run kcptun_client_session.init).pipe1
          = some PipeHandler.read_handler ∧
        (kcptun_client_session.run kcptun_client_session.init).pipe2
          = some PipeHandler.read_handler ∧
        s1.connecting = s.connecting.eraseIdx i ∧
        s1.armed = s.armed ∧ s1.accepting = s.accepting) ∧
    (∀ i s1, s.step (AcceptEvent.connect_done i none) = some s1 →
      ∃ sock, s.connecting[i]? = some sock ∧
        s1.forwarders = s.forwarders ∧ sock ∉ s1.held ∧
        s1.connecting = s.connecting.eraseIdx i ∧
        s1.armed = s.armed ∧ s1.accepting = s.accepting) ∧
    (∀ i sess s1, s.step (AcceptEvent.connect_done i sess) = some s1 →
      (s1.forwarders.length = s.forwarders.length + 1 ↔ sess ≠ none)) := by
  have hd : Distinct s :=
    acceptor_exec_preserves Distinct distinct_step evs Acceptor.init s distinct_init hr
  refine ⟨?_, ?_, ?_, ?_⟩
  · intro s1 hs
    have hpos : 0 < s.accepting := by
      simp only [Acceptor.step] at hs
      split at hs
      · cases hs
      · omega
    rw [step_accept_ok s s1 hs]
    exact ⟨rfl, rfl, hpos, rfl, rfl⟩
  · intro i ss s1 hs
    obtain ⟨sock, hget, e1⟩ := step_connect s s1 i (some ss) hs
    refine ⟨sock, hget, ?_⟩
    rw [e1]
    exact ⟨rfl, rfl, rfl, rfl, rfl, rfl⟩
  · intro i s1 hs
    obtain ⟨sock, hget, e1⟩ := step_connect s s1 i none hs
    refine ⟨sock, hget, ?_⟩
    rw [e1]
    refine ⟨rfl, ?_, rfl, rfl, rfl⟩
    obtain ⟨a, b, h1, h2⟩ := eraseIdx_split s.connecting i sock hget
    obtain ⟨hn, _⟩ := hd
    unfold Acceptor.held at *
    simp only [connect_handler, h2]
    rw [h1] at hn
    simp only [List.append_assoc, List.cons_append] at hn
    rw [List.nodup_middle, List.nodup_cons] at hn
    simpa using hn.1
  · intro i sess s1 hs
    obtain ⟨sock, _, e1⟩ := step_connect s s1 i sess hs
    rw [e1]
    cases sess with
    | none => simp [connect_handler]
    | some ss => simp [connect_handler]

/-- Claim C8.  Upstream direction of a forwarder, in any state.  A read error
on the local socket makes exactly one call, `destroy()` on the stream (no
`cancel()`), and afterwards the upstream direction has no operation
outstanding and never issues an upstream read or write again.  A write error
to the stream makes exactly one call, `cancel()` on the local socket (no
`destroy()`), and afterwards no upstream operation is ever issued again.  A
successful write to the stream arms the next upstream read, and no other
completion issues an upstream read. -/
theorem C8_upstream_errors (s : kcptun_client_session) :
    (∀ ec len s1 later s2, ec ≠ 0 →
      s.step (SessEvent.sock_read_done ec len) = some s1 → s1.exec later = some s2 →
      s1.ops = s.ops ++ [SessOp.destroy] ∧ s1.pipe1 = none ∧
      s2.pipe1 = none ∧ upstream_ops s2.ops = upstream_ops s.ops) ∧
    (∀ ec n s1 later s2, ec ≠ 0 →
      s.step (SessEvent.sess_write_done ec n) = some s1 → s1.exec later = some s2 →
      s1.ops = s.ops ++ [SessOp.cancel] ∧ s1.pipe1 = none ∧
      s2.pipe1 = none ∧ upstream_ops s2.ops = upstream_ops s.ops) ∧
    (∀ n s1, s.step (SessEvent.sess_write_done 0 n) = some s1 →
      s1.ops = s.ops ++ [SessOp.sock_read] ∧ s1.pipe1 = some PipeHandler.read_handler) ∧
    (∀ e s1, s.step e = some s1 → (∀ n, e ≠ SessEvent.sess_write_done 0 n) →
      s1.ops.count SessOp.sock_read = s.ops.count SessOp.sock_read) := by
  refine ⟨?_, ?_, ?_, ?_⟩
  · intro ec len s1 later s2 hec hs hl
    obtain ⟨_, _, he, _⟩ := step_sock_read_done s s1 ec len hs
    obtain ⟨h1, h2⟩ := he hec
    have h3 : upstream_ops s1.ops = upstream_ops s.ops := by
      rw [h2, upstream_ops_append]; simp [upstream_ops]
    obtain ⟨h4, h5⟩ := upstream_stopped (upstream_ops s.ops) later s1 s2 h1 h3 hl
    exact ⟨h2, h1, h4, h5⟩
  · intro ec n s1 later s2 hec hs hl
    obtain ⟨_, _, he, _⟩ := step_sess_write_done s s1 ec n hs
    obtain ⟨h1, h2⟩ := he hec
    have h3 : upstream_ops s1.ops = upstream_ops s.ops := by
      rw [h2, upstream_ops_append]; simp [upstream_ops]
    obtain ⟨h4, h5⟩ := upstream_stopped (upstream_ops s.ops) later s1 s2 h1 h3 hl
    exact ⟨h2, h1, h4, h5⟩
  · intro n s1 hs
    obtain ⟨_, _, _, hk⟩ := step_sess_write_done s s1 0 n hs
    exact ⟨(hk rfl).2, (hk rfl).1⟩
  · intro e s1 hs hne
    cases e with
    | sock_read_done ec len =>
      obtain ⟨_, _, he, hk⟩ := step_sock_read_done s s1 ec len hs
      by_cases hec : ec = 0
      · rw [(hk hec).2]; simp
      · rw [(he hec).2]; simp
    | sess_write_done ec n =>
      obtain ⟨_, _, he, _⟩ := step_sess_write_done s s1 ec n hs
      have hec : ec ≠ 0 := by
        intro h0
        subst h0
        exact hne n rfl
      rw [(he hec).2]; simp
    | sess_read_done ec len =>
      obtain ⟨_, _, he, hk⟩ := step_sess_read_done s s1 ec len hs
      by_cases hec : ec = 0
      · rw [(hk hec).2]; simp
      · rw [(he hec).2]; simp
    | sock_write_done ec n =>
      obtain ⟨_, _, he, hk⟩ := step_sock_write_done s s1 ec n hs
      by_cases hec : ec = 0
      · rw [(hk hec).2]; simp
      · rw [(he hec).2]; simp

/-- Claim C9.  Downstream direction of a forwarder, in any state.  A read
error on the stream makes exactly one call, `cancel()` on the local socket (no
`destroy()`), and afterwards the downstream direction has no operation
outstanding and never issues a downstream read or write again.  A write error
on the local socket makes exactly one call, `destroy()` on the stream, and
afterwards no downstream operation is ever issued again.  In both cases the
handler leaves the outstanding upstream operation as it was, and the upstream
direction keeps an operation outstanding for as long as no upstream
completion reports an error. -/
theorem C9_downstream_errors (s : kcptun_client_session) :
    (∀ ec len s1 later s2, ec ≠ 0 →
      s.step (SessEvent.sess_read_done ec len) = some s1 → s1.exec later = some s2 →
      s1.ops = s.ops ++ [SessOp.cancel] ∧ s1.pipe2 = none ∧ s1.pipe1 = s.pipe1 ∧
      s2.pipe2 = none ∧ downstream_ops s2.ops = downstream_ops s.ops ∧
      (s.pipe1 ≠ none → (∀ e ∈ later, SessEvent.upstream_error e = false) →
        s2.pipe1 ≠ none)) ∧
    (∀ ec n s1 later s2, ec ≠ 0 →
      s.step (SessEvent.sock_write_done ec n) = some s1 → s1.exec later = some s2 →
      s1.ops = s.ops ++ [SessOp.destroy] ∧ s1.pipe2 = none ∧ s1.pipe1 = s.pipe1 ∧
      s2.pipe2 = none ∧ downstream_ops s2.ops = downstream_ops s.ops ∧
      (s.pipe1 ≠ none → (∀ e ∈ later, SessEvent.upstream_error e = false) →
        s2.pipe1 ≠ none)) := by
  refine ⟨?_, ?_⟩
  · intro ec len s1 later s2 hec hs hl
    obtain ⟨_, hp, he, _⟩ := step_sess_read_done s s1 ec len hs
    obtain ⟨h1, h2⟩ := he hec
    have h3 : downstream_ops s1.ops = downstream_ops s.ops := by
      rw [h2, downstream_ops_append]; simp [downstream_ops]
    obtain ⟨h4, h5⟩ := downstream_stopped (downstream_ops s.ops) later s1 s2 h1 h3 hl
    refine ⟨h2, h1, hp, h4, h5, ?_⟩
    intro hne hok
    exact upstream_keeps_running later s1 s2 (by rw [hp]; exact hne) hok hl
  · intro ec n s1 later s2 hec hs hl
    obtain ⟨_, hp, he, _⟩ := step_sock_write_done s s1 ec n hs
    obtain ⟨h1, h2⟩ := he hec
    have h3 : downstream_ops s1.ops = downstream_ops s.ops := by
      rw [h2, downstream_ops_append]; simp [downstream_ops]
    obtain ⟨h4, h5⟩ := downstream_stopped (downstream_ops s.ops) later s1 s2 h1 h3 hl
    refine ⟨h2, h1, hp, h4, h5, ?_⟩
    intro hne hok
    exact upstream_keeps_running later s1 s2 (by rw [hp]; exact hne) hok hl

/-- Witness for claim C1: after two submissions without compression exactly one
write is outstanding. -/
theorem C1_single_outstanding_write_witness :
    run none kcptun_client.init two_submits = some busy_state ∧ busy_state.inflight.length ≤ 1 :=
  ⟨rfl, (C1_single_outstanding_write none two_submits busy_state rfl).1⟩

/-- Witness for claim C2: after two submissions without compression the issued
task followed by the queued task are the two submitted tasks, and the
transport saw the buffer and length of the issued task. -/
theorem C2_fifo_order_witness :
    run none kcptun_client.init two_submits = some busy_state ∧
    started busy_state.log ++ busy_state.tasks_ = submitted busy_state.log ∧
    xmits busy_state.log = (started busy_state.log).map Task.span :=
  ⟨rfl, (C2_fifo_order none two_submits busy_state rfl).1,
    (C2_fifo_order none two_submits busy_state rfl).2.2.2 rfl⟩

/-- Witness for claim C3: a run of three tasks, the third submitted from the
callback of the first, in which every write succeeds. -/
theorem C3_callback_exactly_once_witness :
    run none kcptun_client.init full_run = some drained_state ∧
    marks drained_state.log = (submitted drained_state.log).flatMap block ∧
    calls drained_state.log = (submitted drained_state.log).filterMap Task.expected_call :=
  ⟨rfl, C3_callback_exactly_once none full_run drained_state rfl
    (by
      intro ec n h
      simp [drained_state] at h
      rcases h with ⟨h, _⟩ | ⟨h, _⟩ | ⟨h, _⟩ <;> exact h)
    rfl rfl⟩

/-- Witness for claim C4: the write of the first of two tasks fails with error
9; the second task stays queued and nothing is sent or called afterwards. -/
theorem C4_failed_write_halts_witness :
    run none kcptun_client.init two_submits = some busy_state ∧
    step none busy_state (Event.complete 0 9 0 []) = some failed_state ∧
    run none failed_state [Event.submit task_c] = some failed_later_state ∧
    calls failed_state.log = calls busy_state.log ∧
    busy_state.tasks_ <+: failed_later_state.tasks_ ∧
    xmits failed_later_state.log = xmits busy_state.log ∧
    calls failed_later_state.log = calls busy_state.log :=
  have h := C4_failed_write_halts none two_submits busy_state failed_state failed_later_state
    0 9 0 [] [Event.submit task_c] rfl (by decide) rfl rfl
  ⟨rfl, rfl, rfl, h.1, h.2.2.1, h.2.2.2.2.1, h.2.2.2.2.2⟩

/-- Claim C5 as stated fails.  Without compression, in the state reached by
`two_submits` the write of `task_a` (4 bytes, callback 7) is outstanding.
When the transport reports success and 3 bytes, the callback is called with
length 4, not with the reported 3; when the transport reports error 9, the
callback is not called at all. -/
theorem C5_counterexample :
    run none kcptun_client.init two_submits = some busy_state ∧
    step none busy_state (Event.complete 0 0 3 [task_c]) = some next_state ∧
    calls busy_state.log = [] ∧
    calls next_state.log = [(7, 0, 4)] ∧
    calls next_state.log ≠ [(7, 0, 3)] ∧
    step none busy_state (Event.complete 0 9 0 []) = some failed_state ∧
    calls failed_state.log = [] :=
  ⟨rfl, rfl, rfl, rfl, by decide, rfl, rfl⟩

/-- Witness for claim C5 as amended: the transport reports success and 3 bytes
for a task of 4 bytes. -/
theorem C5_callback_arguments_witness :
    run none kcptun_client.init two_submits = some busy_state ∧
    step none busy_state (Event.complete 0 0 3 [task_c]) = some next_state ∧
    ∃ d t hd, busy_state.inflight = [hd] ∧ hd.task = some t ∧
      started busy_state.log = d ++ [t] ∧
      ((0 : ErrorCode) = 0 → calls next_state.log = calls busy_state.log ++ t.expected_call.toList) ∧
      ((0 : ErrorCode) ≠ 0 → calls next_state.log = calls busy_state.log) :=
  ⟨rfl, rfl, C5_callback_arguments two_submits busy_state next_state 0 0 3 [task_c] rfl rfl⟩

/-- Witness for claim C6: a compression writer that sends 2 bytes for a task of
4 bytes. -/
theorem C6_uncompressed_length_witness :
    run (some small_chunks) kcptun_client.init two_submits = some busy_snappy_state ∧
    step (some small_chunks) busy_snappy_state (Event.complete 0 0 2 []) = some next_snappy_state ∧
    ∃ d t hd, busy_snappy_state.inflight = [hd] ∧ hd.task = some t ∧
      started busy_snappy_state.log = d ++ [t] ∧
      calls next_snappy_state.log = calls busy_snappy_state.log ++ t.expected_call.toList :=
  ⟨rfl, rfl, (C6_uncompressed_length small_chunks two_submits busy_snappy_state rfl).2
    0 2 [] next_snappy_state rfl⟩

/-- Witness for claim C7: one connection is accepted and the multiplexer refuses
its stream. -/
theorem C7_acceptor_witness :
    Acceptor.init.exec [AcceptEvent.accept_done 0] = some one_accepted ∧
    one_accepted.step (AcceptEvent.connect_done 0 none) = some one_refused ∧
    ∃ sock, one_accepted.connecting[0]? = some sock ∧
      one_refused.forwarders = one_accepted.forwarders ∧ sock ∉ one_refused.held ∧
      one_refused.connecting = one_accepted.connecting.eraseIdx 0 ∧
      one_refused.armed = one_accepted.armed ∧ one_refused.accepting = one_accepted.accepting :=
  ⟨rfl, rfl, (C7_acceptor [AcceptEvent.accept_done 0] one_accepted rfl).2.2.1 0 one_refused rfl⟩

/-- Witness for claim C8: a started forwarder whose local read fails with error
5. -/
theorem C8_upstream_errors_witness :
    started_session.step (SessEvent.sock_read_done 5 0) = some upstream_failed_session ∧
    upstream_failed_session.ops = started_session.ops ++ [SessOp.destroy] ∧
    upstream_failed_session.pipe1 = none ∧
    upstream_ops upstream_failed_session.ops = upstream_ops started_session.ops :=
  have h := (C8_upstream_errors started_session).1 5 0 upstream_failed_session []
    upstream_failed_session (by decide) rfl rfl
  ⟨rfl, h.1, h.2.1, h.2.2.2⟩

/-- Witness for claim C9: a started forwarder whose stream read fails with
error 5. -/
theorem C9_downstream_errors_witness :
    started_session.step (SessEvent.sess_read_done 5 0) = some downstream_failed_session ∧
    downstream_failed_session.ops = started_session.ops ++ [SessOp.cancel] ∧
    downstream_failed_session.pipe2 = none ∧
    downstream_failed_session.pipe1 = started_session.pipe1 :=
  have h := (C9_downstream_errors started_session).1 5 0 downstream_failed_session []
    downstream_failed_session (by decide) rfl rfl
  ⟨rfl, h.1, h.2.1, h.2.2.1⟩

/-- Witness for claim C10: after a failed write one more task is submitted. -/
theorem C10_permanent_stall_witness :
    run none kcptun_client.init two_submits = some busy_state ∧
    step none busy_state (Event.complete 0 9 0 []) = some failed_state ∧
    run none failed_state [Event.submit task_c] = some failed_later_state ∧
    failed_later_state.writing_ = true ∧ failed_later_state.inflight = [] ∧
    failed_later_state.tasks_.length = failed_state.tasks_.length + 1 :=
  have h := C10_permanent_stall none two_submits busy_state failed_state failed_later_state
    0 9 0 [] [Event.submit task_c] rfl (by decide) rfl rfl
  ⟨rfl, rfl, rfl, h.1, h.2.1, h.2.2.2.2.2.2.2⟩

end KcptunClient
